import Mathlib

/-!
Shallow embedding of the client-side post list/detail coordination layer of the
news-project repository: the paginated list store (src/unnamed/part_032), the
post-details store (src/unnamed/part_029, lines 272-850 variant), and the
coordinator composable (src/unnamed/part_024).

JavaScript asynchronous execution is modelled by splitting every network-bound
operation into an `Issue` phase (the synchronous prefix up to the first await:
aborting the previous in-flight request, installing a fresh cancellation token,
setting the loading flag, issuing the request) and a `Resolve` phase (the
continuation that runs when the response is delivered, parametrised by the
outcome).  Cancellation tokens are natural numbers; `abort()` adds the token of
the in-flight request to an aborted set, and `signal.aborted` is membership in
that set.  Per AbortController semantics a request aborted while in flight
rejects with an AbortError; a request whose promise settled before the abort may
still run its continuation afterwards and then observes `signal.aborted = true`.

Network and storage side effects are recorded in an event list so that theorems
can speak about which repository calls an operation makes and in which order.
-/

namespace NewsProject

/-- `PostSearchField` from src/unnamed/part_032 line 11: 'title' | 'body' | 'userId'. -/
inductive SearchField where
  | title
  | body
  | userId
deriving DecidableEq, Repr

/-- `reactions: {likes, dislikes}` of a PostDto. -/
structure Reactions where
  likes : Nat
  dislikes : Nat
deriving DecidableEq, Repr

/-- PostDto (src/src/dto/post/postDto shape: id, title, body, userId, views, reactions, tags). -/
structure PostDto where
  id : Nat
  title : String
  body : String
  userId : Nat
  views : Nat
  reactions : Reactions
  tags : List String
deriving DecidableEq, Repr

/-- CommentDto: only the fields the core reads (id, likes). -/
structure CommentDto where
  id : Nat
  likes : Nat
deriving DecidableEq, Repr

/-- UserDto: only the identity matters to the core. -/
structure UserDto where
  id : Nat
  name : String
deriving DecidableEq, Repr

/-- CachedPostDetails (src/unnamed/part_029 lines 301-307). -/
structure CachedPostDetails where
  post : PostDto
  user : Option UserDto
  comments : List CommentDto
  position : Option Nat
deriving DecidableEq, Repr

/-- SearchContext (src/unnamed/part_029 lines 294-297). -/
structure SearchContext where
  query : String
  field : SearchField
deriving DecidableEq, Repr

/-- UserPostReaction = 'like' | 'dislike' (src/unnamed/part_029 line 299). -/
inductive UserPostReaction where
  | like
  | dislike
deriving DecidableEq, Repr

/-- An error value: whether it is an AbortError (DOMException named AbortError,
see isAbortError in src/unnamed/part_012) and its HTTP status if any
(getHttpStatus). -/
structure ErrVal where
  isAbort : Bool
  status : Option Nat
deriving DecidableEq, Repr

/-- The shape persisted by postsListStore.saveToStorage
(`StoredPostsState`, src/unnamed/part_032 lines 18-25). -/
structure StoredPostsState where
  posts : List PostDto
  page : Nat
  query : String
  searchField : SearchField
  total : Nat
  totalPages : Nat
deriving DecidableEq, Repr

/-- Typed model of the sessionStorage slots the embedded operations write.
Writes always store well-formed values, so each slot holds the decoded value
rather than its JSON text. -/
structure Storage where
  listState : Option StoredPostsState
  userReactions : List (String × List (Nat × UserPostReaction))
  likedComments : List (String × List Nat)
  viewedIds : List Nat
deriving DecidableEq, Repr

/-- Observable side effects: repository calls, sessionStorage writes,
console.error logs, and the coordinator's delegation to loadPostForModal. -/
inductive Ev where
  | getPosts (page limit : Nat) (query : String) (field : SearchField)
  | getPostById (id : Nat)
  | getUser (id : Nat)
  | getPostComments (postId : Nat)
  | patchPostViews (id views : Nat)
  | patchPostReactions (id : Nat) (r : Reactions)
  | patchCommentLikes (id likes : Nat)
  | storeWrite (key : String)
  | logError (context : String)
  | loadForModalCall (position : Nat) (postId : Option Nat) (query : String) (field : SearchField)
deriving DecidableEq, Repr

/-- Combined state: the posts-list store (src/unnamed/part_032), the
claim-relevant fields of the post-details store (src/unnamed/part_029), the two
module-level AbortController refs modelled as token generations plus the set of
aborted tokens, and sessionStorage. -/
structure Sys where
  -- postsListStore state (part_032 lines 28-37)
  posts : List PostDto
  limit : Nat
  page : Nat
  query : String
  searchField : SearchField
  total : Nat
  totalPages : Nat
  isLoading : Bool
  -- postDetailsStore state (part_029 lines 396-417, claim-relevant fields)
  modalPostLoading : Bool
  modalRequestedPostId : Option Nat
  postDetailsCache : List CachedPostDetails
  modalPostPosition : Nat
  viewedPostIds : List Nat
  userReactions : List (Nat × UserPostReaction)
  likedCommentIds : List Nat
  -- requestControllerRef (part_032 line 16) / modalRequestControllerRef (part_029 line 309)
  listController : Option Nat
  listAborted : List Nat
  modalController : Option Nat
  modalAborted : List Nat
  storage : Storage
deriving DecidableEq, Repr

/-! ### Association-list maps

JS objects keyed by `String(postId)` / the user key are modelled as association
lists; `String` post-id keys are replaced by their `Nat` preimages (the
conversion is injective and every key written by the embedded code comes from a
`Nat`). -/

/-- Lookup in a JS-object-like association list. -/
def mlookup {κ α : Type} [BEq κ] (m : List (κ × α)) (k : κ) : Option α :=
  (m.find? (fun p => p.1 == k)).map Prod.snd

/-- `obj[k] = v`: replace in place when the key exists (object keys are
unique, so replacing the first occurrence is equivalent), else append. -/
def mset {κ α : Type} [BEq κ] : List (κ × α) → κ → α → List (κ × α)
  | [], k, v => [(k, v)]
  | p :: ps, k, v => if p.1 == k then (k, v) :: ps else p :: mset ps k v

/-- `delete obj[k]` (object keys are unique, so a filter is equivalent). -/
def mdel {κ α : Type} [BEq κ] (m : List (κ × α)) (k : κ) : List (κ × α) :=
  m.filter (fun p => !(p.1 == k))

/-- `if (v) obj[k] = v else delete obj[k]`: the assign-or-delete idiom the
reaction code uses on `userReactions`. -/
def msetOpt {κ α : Type} [BEq κ] (m : List (κ × α)) (k : κ) : Option α → List (κ × α)
  | some v => mset m k v
  | none => mdel m k

/-- Mutate the first element satisfying `p` in place, as JS `find` + field
assignment does. -/
def updateFirst {α : Type} (p : α → Bool) (f : α → α) : List α → List α
  | [] => []
  | x :: xs => if p x then f x :: xs else x :: updateFirst p f xs

/-- `userIdKey` (part_029 lines 386-388). -/
def userIdKey (userId : Option Nat) : String :=
  match userId with
  | some id => toString id
  | none => "guest"

/-! ### postsListStore (src/unnamed/part_032) -/

/-- `recalculateTotalPages` (part_032 lines 48-50):
`totalPages = Math.max(1, Math.ceil(total / limit))`, with `limit = 9` always,
so Nat ceiling division matches. -/
def recalculateTotalPages (s : Sys) : Sys :=
  { s with totalPages := max 1 ((s.total + s.limit - 1) / s.limit) }

/-- The blob `saveToStorage` serialises (part_032 lines 54-61). -/
def storedListState (s : Sys) : StoredPostsState :=
  { posts := s.posts, page := s.page, query := s.query, searchField := s.searchField,
    total := s.total, totalPages := s.totalPages }

/-- `saveToStorage` (part_032 lines 52-66): write the list state under
`posts_list_store_state`. -/
def saveListToStorage (s : Sys) : Sys × List Ev :=
  ({ s with storage := { s.storage with listState := some (storedListState s) } },
   [Ev.storeWrite "posts_list_store_state"])

/-- `fetchPosts` issue phase (part_032 lines 93-106): abort any in-flight
request, install a fresh controller, optionally reset to page 1, raise the
loading flag and issue `getPosts`. -/
def fetchPostsIssue (tok : Nat) (resetPage : Bool) (s : Sys) : Sys × List Ev :=
  let s :=
    match s.listController with
    | some t => { s with listAborted := t :: s.listAborted }
    | none => s
  let s := { s with listController := some tok }
  let s := if resetPage then { s with page := 1 } else s
  let s := { s with isLoading := true }
  (s, [Ev.getPosts s.page s.limit s.query s.searchField])

/-- Outcome of the `getPosts` call awaited by `fetchPosts`: a response
`{posts, total?, totalPages?}` or a rejection. -/
inductive FetchOutcome where
  | success (posts : List PostDto) (total : Option Nat) (totalPages : Option Nat)
  | failure (e : ErrVal)
deriving DecidableEq, Repr

/-- Result of running a resolve phase: the new state, the emitted events, and
`some e` when the operation rethrows `e` to its caller. -/
structure FetchRes where
  s : Sys
  ev : List Ev
  err : Option ErrVal
deriving DecidableEq, Repr

/-- `fetchPosts` resolve phase (part_032 lines 107-141): the continuation that
runs when `getPosts` settles.  On success with the signal already aborted the
body returns before mutating anything; otherwise posts/total/totalPages are
stored and persisted.  On rejection, a non-abort 404 under a `userId` search is
normalised to an empty page; every other rejection (including AbortError) is
rethrown.  The `finally` clause clears the loading flag and the controller ref
unconditionally. -/
def fetchPostsResolve (tok : Nat) (out : FetchOutcome) (s : Sys) : FetchRes :=
  let aborted := s.listAborted.contains tok
  match out with
  | .success posts total totalPages =>
    if aborted then
      { s := { s with isLoading := false, listController := none }, ev := [], err := none }
    else
      let s := { s with posts := posts, total := total.getD posts.length }
      let s :=
        match totalPages with
        | some tp => { s with totalPages := tp }
        | none => recalculateTotalPages s
      let (s, ev) := saveListToStorage s
      { s := { s with isLoading := false, listController := none }, ev := ev, err := none }
  | .failure e =>
    if !e.isAbort && e.status == some 404 && s.searchField == SearchField.userId then
      let s := recalculateTotalPages { s with posts := [], page := 1, total := 0 }
      let (s, ev) := saveListToStorage s
      { s := { s with isLoading := false, listController := none }, ev := ev, err := none }
    else
      { s := { s with isLoading := false, listController := none }, ev := [], err := some e }

/-- `searchPosts` issue phase (part_032 lines 144-148): trim the query, keep
the field when none is given, fetch with `resetPage = true`. -/
def searchPostsIssue (tok : Nat) (query : String) (field : Option SearchField) (s : Sys) :
    Sys × List Ev :=
  fetchPostsIssue tok true
    { s with query := query.trim, searchField := field.getD s.searchField }

/-- `loadPage` issue phase (part_032 lines 150-153). -/
def loadPageIssue (tok page : Nat) (s : Sys) : Sys × List Ev :=
  fetchPostsIssue tok false { s with page := page }

/-- `refreshPosts` issue phase (part_032 lines 181-183). -/
def refreshPostsIssue (tok : Nat) (s : Sys) : Sys × List Ev :=
  fetchPostsIssue tok false s

/-- The optional fields `updatePostInList` accepts (part_032 line 160). -/
structure PostPatchFields where
  title : Option String
  body : Option String
  views : Option Nat
deriving DecidableEq, Repr

/-- The in-place field assignments of `updatePostInList` on the found post. -/
def applyPostPatch (fields : PostPatchFields) (p : PostDto) : PostDto :=
  let p := match fields.title with | some t => { p with title := t } | none => p
  let p := match fields.body with | some b => { p with body := b } | none => p
  match fields.views with | some v => { p with views := v } | none => p

/-- `updatePostInList` (part_032 lines 160-167): patch the first list entry
with the given id in place, then persist; no-op when absent. -/
def updatePostInList (postId : Nat) (fields : PostPatchFields) (s : Sys) : Sys × List Ev :=
  if s.posts.any (fun p => p.id == postId) then
    let newPosts := updateFirst (fun p => p.id == postId) (applyPostPatch fields) s.posts
    saveListToStorage { s with posts := newPosts }
  else (s, [])

/-- `removePostFromList` (part_032 lines 170-179): splice the post out,
decrement `total` when positive, recompute `totalPages`, persist; return
untouched when the id is not on the current page. -/
def removePostFromList (postId : Nat) (s : Sys) : Sys × List Ev :=
  match s.posts.findIdx? (fun p => p.id == postId) with
  | none => (s, [])
  | some i =>
    let s := { s with posts := s.posts.eraseIdx i }
    let s := if s.total > 0 then recalculateTotalPages { s with total := s.total - 1 } else s
    saveListToStorage s

/-! ### postDetailsStore (src/unnamed/part_029, lines 272-850 variant) -/

/-- `this.postDetailsCache.find((c) => c.post.id === postId)`. -/
def findCached (s : Sys) (postId : Nat) : Option CachedPostDetails :=
  s.postDetailsCache.find? (fun c => c.post.id == postId)

/-- The `cachedEntry` getter (part_029 lines 421-424). -/
def cachedEntry (s : Sys) : Option CachedPostDetails :=
  match s.modalRequestedPostId with
  | none => none
  | some rid => s.postDetailsCache.find? (fun c => c.post.id == rid)

/-- `clearPostDetailsCache` (part_029 lines 716-718). -/
def clearPostDetailsCache (s : Sys) : Sys :=
  { s with postDetailsCache := [] }

/-- `if (cached) { cached.post.views = newViews }`: in-place update of the
found cache entry's view count (part_029 lines 805-807). -/
def viewsCacheUpdated (postId v : Nat) (s : Sys) : Sys :=
  let newCache :=
    updateFirst (fun (c : CachedPostDetails) => c.post.id == postId)
      (fun c => { c with post := { c.post with views := v } })
      s.postDetailsCache
  { s with postDetailsCache := newCache }

/-- `incrementViews` (part_029 lines 796-816), executed to completion: no-op if
the id was already viewed this session; otherwise the network call
`patchPostViews(postId, currentViews + 1)` is awaited FIRST, and only on its
success are the cached post, the sibling list entry and the viewed-ids set
updated and persisted.  `out = none` models success, `out = some e` a
rejection (logged unless it is an AbortError, then swallowed). -/
def incrementViews (postId : Nat) (out : Option ErrVal) (s : Sys) : Sys × List Ev :=
  if s.viewedPostIds.contains postId then (s, [])
  else
    let currentViews := ((findCached s postId).map (fun c => c.post.views)).getD 0
    let callEv := Ev.patchPostViews postId (currentViews + 1)
    match out with
    | none =>
      let newViews := currentViews + 1
      let s := viewsCacheUpdated postId newViews s
      let (s, evUpd) := updatePostInList postId ⟨none, none, some newViews⟩ s
      let newViewed := s.viewedPostIds ++ [postId]
      let s := { s with viewedPostIds := newViewed,
                        storage := { s.storage with viewedIds := newViewed } }
      (s, callEv :: evUpd ++ [Ev.storeWrite "post_details_viewed_ids"])
    | some e =>
      (s, callEv :: (if e.isAbort then [] else [Ev.logError "Error incrementing views:"]))

/-- The synchronous prefix of the fire-and-forget `this.incrementViews(...)`
call made at the top of `loadPostForModal` and `clearModalPost`: it runs up to
the first await, so it may issue `patchPostViews` but mutates nothing yet. -/
def incrementViewsIssue (postId : Nat) (s : Sys) : List Ev :=
  if s.viewedPostIds.contains postId then []
  else
    [Ev.patchPostViews postId ((((findCached s postId).map (fun c => c.post.views)).getD 0) + 1)]

/-- `comment.likes = v`: in-place update of the found comment inside a cache
entry (part_029 line 519 / 535). -/
def setLikesIn (cid v : Nat) (c : CachedPostDetails) : CachedPostDetails :=
  let newComments :=
    updateFirst (fun (c2 : CommentDto) => c2.id == cid) (fun c2 => { c2 with likes := v })
      c.comments
  { c with comments := newComments }

/-- `toggleCommentLike` (part_029 lines 508-546), executed to completion with
network outcome `out` (`none` = success).  Optimistic mutation of the found
comment's like count and of `likedCommentIds`, persisted to the per-user slice
of `post_liked_comments` BEFORE the `patchCommentLikes` call; the catch block
restores the captured prior count and set membership and persists the rollback.
`uid` is `loginStore.user?.id`.  `Math.max(0, likes - 1)` coincides with
truncated Nat subtraction. -/
def toggleCommentLike (commentId : Nat) (uid : Option Nat) (out : Option ErrVal) (s : Sys) :
    Sys × List Ev :=
  match cachedEntry s with
  | none => (s, [])
  | some cached =>
    match cached.comments.find? (fun c => c.id == commentId) with
    | none => (s, [])
    | some comment =>
      let wasLiked := s.likedCommentIds.contains commentId
      let oldLikes := comment.likes
      let newLikes := if wasLiked then oldLikes - 1 else oldLikes + 1
      let setCommentLikes := fun (v : Nat) (st : Sys) =>
        let newCache :=
          updateFirst (fun (c : CachedPostDetails) => c.post.id == cached.post.id)
            (setLikesIn commentId v) st.postDetailsCache
        { st with postDetailsCache := newCache }
      let s := setCommentLikes newLikes s
      let s :=
        if wasLiked then
          { s with likedCommentIds := s.likedCommentIds.filter (fun id => !(id == commentId)) }
        else { s with likedCommentIds := s.likedCommentIds ++ [commentId] }
      let key := userIdKey uid
      let s :=
        { s with storage :=
            { s.storage with likedComments := mset s.storage.likedComments key s.likedCommentIds } }
      let evs := [Ev.storeWrite "post_liked_comments", Ev.patchCommentLikes commentId newLikes]
      match out with
      | none => (s, evs)
      | some e =>
        let s := setCommentLikes oldLikes s
        let s :=
          if wasLiked then { s with likedCommentIds := s.likedCommentIds ++ [commentId] }
          else
            { s with likedCommentIds := s.likedCommentIds.filter (fun id => !(id == commentId)) }
        let s :=
          { s with storage :=
              { s.storage with
                  likedComments := mset s.storage.likedComments key s.likedCommentIds } }
        (s, evs ++ Ev.storeWrite "post_liked_comments" ::
              (if e.isAbort then [] else [Ev.logError "Error toggling comment like:"]))

/-- `toggleReaction` (part_029 lines 743-794), executed to completion with
network outcome `out` (`none` = success).  No-op when the post is not cached;
otherwise the new counts and the new per-user reaction are computed exactly as
in the source, applied to the cached post and to `userReactions`, and persisted
into the per-user slice of `post_user_reactions` BEFORE `patchPostReactions`;
the catch block restores the captured prior counts and prior reaction and
persists that rollback. -/
def toggleReaction (postId : Nat) (reaction : UserPostReaction) (uid : Option Nat)
    (out : Option ErrVal) (s : Sys) : Sys × List Ev :=
  match findCached s postId with
  | none => (s, [])
  | some cached =>
    let current := mlookup s.userReactions postId
    let likes := cached.post.reactions.likes
    let dislikes := cached.post.reactions.dislikes
    let upd :=
      if current == some reaction then
        match reaction with
        | .like => (likes - 1, dislikes, (none : Option UserPostReaction))
        | .dislike => (likes, dislikes - 1, none)
      else
        let l1 := if current == some UserPostReaction.like then likes - 1 else likes
        let d1 := if current == some UserPostReaction.dislike then dislikes - 1 else dislikes
        match reaction with
        | .like => (l1 + 1, d1, some reaction)
        | .dislike => (l1, d1 + 1, some reaction)
    let newLikes := upd.1
    let newDislikes := upd.2.1
    let newReaction := upd.2.2
    let setReactions := fun (v : Reactions) (st : Sys) =>
      let newCache :=
        updateFirst (fun (c : CachedPostDetails) => c.post.id == postId)
          (fun c => { c with post := { c.post with reactions := v } })
          st.postDetailsCache
      { st with postDetailsCache := newCache }
    let s := setReactions ⟨newLikes, newDislikes⟩ s
    let s := { s with userReactions := msetOpt s.userReactions postId newReaction }
    let key := userIdKey uid
    let s :=
      { s with storage :=
          { s.storage with userReactions := mset s.storage.userReactions key s.userReactions } }
    let evs := [Ev.storeWrite "post_user_reactions",
                Ev.patchPostReactions postId ⟨newLikes, newDislikes⟩]
    match out with
    | none => (s, evs)
    | some e =>
      let s := setReactions ⟨likes, dislikes⟩ s
      let s := { s with userReactions := msetOpt s.userReactions postId current }
      let s :=
        { s with storage :=
            { s.storage with userReactions := mset s.storage.userReactions key s.userReactions } }
      (s, evs ++ Ev.storeWrite "post_user_reactions" ::
            (if e.isAbort then [] else [Ev.logError "Error toggling reaction:"]))

/-- Result of the `loadPostForModal` issue phase: `pending = true` when a
network fetch was started under token `tok` (the cache missed), `false` when
the call completed synchronously from the cache. -/
structure LoadIssueRes where
  s : Sys
  ev : List Ev
  pending : Bool
deriving DecidableEq, Repr

/-- `loadPostForModal` issue phase (part_029 lines 554-581): flush the pending
view increment for the previously requested post (fire-and-forget prefix),
abort the in-flight modal request, record position/requested-id, raise the
loading flag; serve a matching cache entry synchronously (by id when `postId`
is given, else by position), otherwise install a fresh controller and issue the
first fetch (`getPostById`, or `getPosts` with `_limit = 1, _page = position`
under the given search context). -/
def loadPostForModalIssue (tok position : Nat) (postId : Option Nat)
    (ctx : Option SearchContext) (s : Sys) : LoadIssueRes :=
  let ev0 := [Ev.loadForModalCall position postId
                ((ctx.map (fun c => c.query)).getD "")
                ((ctx.map (fun c => c.field)).getD SearchField.title)]
  let evInc :=
    match s.modalRequestedPostId with
    | some rid => incrementViewsIssue rid s
    | none => []
  let s :=
    match s.modalController with
    | some t => { s with modalAborted := t :: s.modalAborted }
    | none => s
  let s := { s with modalPostPosition := position, modalRequestedPostId := postId,
                    modalPostLoading := true }
  let cached :=
    match postId with
    | some pid => s.postDetailsCache.find? (fun (c : CachedPostDetails) => c.post.id == pid)
    | none => s.postDetailsCache.find? (fun (c : CachedPostDetails) => c.position == some position)
  match cached with
  | some c =>
    -- `if (postId != null && this.modalRequestedPostId !== postId) return`: no await
    -- separates this check from the assignment above, so it cannot fire here.
    if postId.isSome && !(s.modalRequestedPostId == postId) then
      { s := s, ev := ev0 ++ evInc, pending := false }
    else
      { s := { s with modalRequestedPostId := some c.post.id, modalPostPosition := position,
                      modalPostLoading := false, modalController := none },
        ev := ev0 ++ evInc, pending := false }
  | none =>
    let s := { s with modalController := some tok }
    let fetchEv :=
      match postId with
      | some pid => Ev.getPostById pid
      | none => Ev.getPosts position 1 ((ctx.map (fun c => c.query)).getD "")
                  ((ctx.map (fun c => c.field)).getD SearchField.title)
    { s := s, ev := ev0 ++ evInc ++ [fetchEv], pending := true }

/-- A `Promise.allSettled` slot: fulfilled with a value or rejected with an
error. -/
inductive SettledRes (α : Type) where
  | fulfilled (v : α)
  | rejected (e : ErrVal)
deriving DecidableEq, Repr

/-- The events issued for the author/comments enrichment:
`post.userId ? getUser(post.userId, signal) : Promise.resolve(null)` in
parallel with `getPostComments(post.id, signal)` (part_029 lines 607-610). -/
def enrichEvents (post : PostDto) : List Ev :=
  (if post.userId != 0 then [Ev.getUser post.userId] else []) ++ [Ev.getPostComments post.id]

/-- The tail of `loadPostForModal` after the post itself is in hand (part_029
lines 607-628): issue the author/comments fetches, bail out if the signal was
aborted, default the author to `null` and the comments to `[]` on their
individual failures (logging non-abort rejections), then append the new cache
entry tagged with its position and make it current. -/
def loadStage2 (tok position : Nat) (post : PostDto)
    (userRes : SettledRes (Option UserDto)) (commentsRes : SettledRes (List CommentDto))
    (s : Sys) : Sys × List Ev :=
  let ev := enrichEvents post
  if s.modalAborted.contains tok then (s, ev)
  else
    let user := match userRes with
      | .fulfilled (some u) => some u
      | .fulfilled none => none
      | .rejected _ => none
    let comments := match commentsRes with
      | .fulfilled cs => cs
      | .rejected _ => []
    let evLogU := match userRes with
      | .rejected e => if e.isAbort then [] else [Ev.logError "Error fetching user:"]
      | .fulfilled _ => []
    let evLogC := match commentsRes with
      | .rejected e => if e.isAbort then [] else [Ev.logError "Error fetching comments:"]
      | .fulfilled _ => []
    let entry : CachedPostDetails :=
      { post := post, user := user, comments := comments, position := some position }
    let s := { s with postDetailsCache := s.postDetailsCache ++ [entry],
                      modalRequestedPostId := some post.id, modalPostPosition := position }
    (s, ev ++ evLogU ++ evLogC)

/-- The `finally` clause of `loadPostForModal` (part_029 lines 634-643): clear
the loading flag (for an id-based call only while that id is still the
requested one) and release the controller ref only if this request still owns
it. -/
def loadFinally (tok : Nat) (postId : Option Nat) (s : Sys) : Sys :=
  let s :=
    match postId with
    | some pid => if s.modalRequestedPostId == some pid then { s with modalPostLoading := false }
                  else s
    | none => { s with modalPostLoading := false }
  if s.modalController == some tok then { s with modalController := none } else s

/-- Result of a `loadPostForModal` resolve phase. -/
structure LoadRes where
  s : Sys
  ev : List Ev
  err : Option ErrVal
deriving DecidableEq, Repr

/-- `loadPostForModal` resolve phase for an id-based call (part_029 lines
583-643 with `postId != null`): on a rejection, log unless it is an abort and
rethrow; on a response, discard it when the signal was aborted or the requested
id has changed, else run the enrichment stage; the `finally` clause always
runs. -/
def loadByIdResolve (tok pid position : Nat) (out : SettledRes PostDto)
    (userRes : SettledRes (Option UserDto)) (commentsRes : SettledRes (List CommentDto))
    (s : Sys) : LoadRes :=
  match out with
  | .rejected e =>
    { s := loadFinally tok (some pid) s,
      ev := if e.isAbort then [] else [Ev.logError "Error fetching post:"],
      err := some e }
  | .fulfilled post =>
    if s.modalAborted.contains tok || !(s.modalRequestedPostId == some pid) then
      { s := loadFinally tok (some pid) s, ev := [], err := none }
    else
      let (s, ev) := loadStage2 tok position post userRes commentsRes s
      { s := loadFinally tok (some pid) s, ev := ev, err := none }

/-- `loadPostForModal` resolve phase for a position-based call (part_029 lines
583-643 with `postId == null`): the `getPosts` response yields `data.posts[0]`;
an empty page clears the loading flag and returns; a rejection is logged unless
abort and rethrown; the `finally` clause always runs. -/
def loadByPositionResolve (tok position : Nat) (out : SettledRes (List PostDto))
    (userRes : SettledRes (Option UserDto)) (commentsRes : SettledRes (List CommentDto))
    (s : Sys) : LoadRes :=
  match out with
  | .rejected e =>
    { s := loadFinally tok none s,
      ev := if e.isAbort then [] else [Ev.logError "Error fetching post:"],
      err := some e }
  | .fulfilled posts =>
    if s.modalAborted.contains tok then
      { s := loadFinally tok none s, ev := [], err := none }
    else
      match posts.head? with
      | none =>
        { s := loadFinally tok none { s with modalPostLoading := false }, ev := [], err := none }
      | some post =>
        let (s, ev) := loadStage2 tok position post userRes commentsRes s
        { s := loadFinally tok none s, ev := ev, err := none }

/-! ### usePostsCoordinator (src/unnamed/part_024) -/

/-- `openPostForModal` (part_024 lines 21-28): compute the 1-based global
position `(page - 1) * limit + index + 1` from the list store and delegate to
`loadPostForModal` with the given post id and the list's current search
context.  `page ≥ 1` in every reachable state, so Nat subtraction agrees with
JS arithmetic. -/
def openPostForModal (tok postId index : Nat) (s : Sys) : LoadIssueRes :=
  let position := (s.page - 1) * s.limit + index + 1
  loadPostForModalIssue tok position (some postId)
    (some { query := s.query, field := s.searchField }) s

/-- Coordinator `searchPosts` (part_024 lines 30-33), issue phase: clear the
detail cache, then delegate to the list store's `searchPosts`. -/
def coordSearchPostsIssue (tok : Nat) (query : String) (field : Option SearchField) (s : Sys) :
    Sys × List Ev :=
  searchPostsIssue tok query field (clearPostDetailsCache s)

/-- Coordinator `refreshPosts` (part_024 lines 35-38), issue phase: clear the
detail cache, then delegate to the list store's `refreshPosts`. -/
def coordRefreshPostsIssue (tok : Nat) (s : Sys) : Sys × List Ev :=
  refreshPostsIssue tok (clearPostDetailsCache s)

/-! ### Concrete sample states (used by witnesses and counterexamples) -/

/-- A concrete post. -/
def samplePost (i : Nat) : PostDto :=
  { id := i, title := "Vue 3 Guide", body := "content", userId := 1, views := 5,
    reactions := { likes := 2, dislikes := 1 }, tags := ["vue"] }

/-- Empty sessionStorage. -/
def emptyStorage : Storage :=
  { listState := none, userReactions := [], likedComments := [], viewedIds := [] }

/-- A concrete quiescent system state: two posts on page 1, no in-flight
requests, empty detail cache. -/
def sampleSys : Sys :=
  { posts := [samplePost 1, samplePost 2], limit := 9, page := 1, query := "",
    searchField := SearchField.title, total := 2, totalPages := 1, isLoading := false,
    modalPostLoading := false, modalRequestedPostId := none, postDetailsCache := [],
    modalPostPosition := 0, viewedPostIds := [], userReactions := [], likedCommentIds := [],
    listController := none, listAborted := [], modalController := none, modalAborted := [],
    storage := emptyStorage }

/-! ### C10 -/

/-- C10: if `removePostFromList(postId)` is called with an id that is not
present in the currently loaded posts array, the list state is left completely
unchanged — posts, total and totalPages keep their values, nothing is written
to storage, and in particular `total` is not decremented. -/
theorem removePostFromList_absent_noop (postId : Nat) (s : Sys)
    (h : ∀ p ∈ s.posts, p.id ≠ postId) :
    removePostFromList postId s = (s, []) := by
  have hidx : s.posts.findIdx? (fun p => p.id == postId) = none :=
    List.findIdx?_eq_none_iff.mpr (fun p hp => by simpa using h p hp)
  simp [removePostFromList, hidx]

/-- Witness for C10: post id 99 is not on the loaded page of `sampleSys`. -/
theorem removePostFromList_absent_noop_witness :
    (∀ p ∈ sampleSys.posts, p.id ≠ 99) ∧ removePostFromList 99 sampleSys = (sampleSys, []) :=
  ⟨by decide, removePostFromList_absent_noop 99 sampleSys (by decide)⟩

/-! ### C7 -/

/-- C7: when the current search field is `userId` and the list fetch fails
with a non-abort HTTP 404, `fetchPosts` normalises the state to an empty page
(posts = [], total = 0, page reset to 1, totalPages recomputed) and does not
propagate the failure; for every other field or non-abort error condition the
error is rethrown to the caller and the data fields are left unchanged. -/
theorem fetchPosts_404_userId_normalized (tok : Nat) (s : Sys) (e : ErrVal)
    (habort : e.isAbort = false) :
    (s.searchField = SearchField.userId → e.status = some 404 →
      (fetchPostsResolve tok (.failure e) s).s.posts = [] ∧
      (fetchPostsResolve tok (.failure e) s).s.total = 0 ∧
      (fetchPostsResolve tok (.failure e) s).s.page = 1 ∧
      (fetchPostsResolve tok (.failure e) s).s.totalPages = max 1 ((0 + s.limit - 1) / s.limit) ∧
      (fetchPostsResolve tok (.failure e) s).err = none) ∧
    (s.searchField ≠ SearchField.userId ∨ e.status ≠ some 404 →
      fetchPostsResolve tok (.failure e) s =
        ⟨{ s with isLoading := false, listController := none }, [], some e⟩) := by
  constructor
  · intro hf h404
    simp [fetchPostsResolve, habort, hf, h404, recalculateTotalPages, saveListToStorage,
      storedListState]
  · intro hor
    have hcond : (!e.isAbort && e.status == some 404 &&
        s.searchField == SearchField.userId) = false := by
      rcases hor with hf | h404
      · rcases h : s.searchField == SearchField.userId with _ | _
        · simp [h]
        · exact absurd (by simpa using h) hf
      · rcases h : e.status == some 404 with _ | _
        · simp [h]
        · exact absurd (by simpa using h) h404
    simp [fetchPostsResolve, hcond]

/-- Witness for C7, exercising both conjuncts: a 404 under a userId search is
normalised; a 500 under the same search is rethrown. -/
theorem fetchPosts_404_userId_normalized_witness :
    ((fetchPostsResolve 0 (.failure ⟨false, some 404⟩)
        { sampleSys with searchField := SearchField.userId }).s.posts = [] ∧
      (fetchPostsResolve 0 (.failure ⟨false, some 404⟩)
        { sampleSys with searchField := SearchField.userId }).err = none) ∧
    (fetchPostsResolve 0 (.failure ⟨false, some 500⟩)
        { sampleSys with searchField := SearchField.userId }).err = some ⟨false, some 500⟩ := by
  refine ⟨⟨?_, ?_⟩, ?_⟩
  · exact ((fetchPosts_404_userId_normalized 0
      { sampleSys with searchField := SearchField.userId } ⟨false, some 404⟩ rfl).1
      (by decide) rfl).1
  · exact ((fetchPosts_404_userId_normalized 0
      { sampleSys with searchField := SearchField.userId } ⟨false, some 404⟩ rfl).1
      (by decide) rfl).2.2.2.2
  · have h := (fetchPosts_404_userId_normalized 0
      { sampleSys with searchField := SearchField.userId } ⟨false, some 500⟩ rfl).2
      (Or.inr (by decide))
    simp [h]

/-! ### C9 -/

/-- C9: `openPostForModal(postId, index)` computes the 1-based global position
`(page - 1) * limit + index + 1` from the list store's current page and limit
and delegates to `loadPostForModal` with that position, the given post id and
the list's current search context; with page = 2, limit = 9, index = 2 the
delegated position is 12. -/
theorem openPostForModal_delegates_global_position (tok postId index : Nat) (s : Sys)
    (_hpage : 1 ≤ s.page) :
    openPostForModal tok postId index s =
      loadPostForModalIssue tok ((s.page - 1) * s.limit + index + 1) (some postId)
        (some { query := s.query, field := s.searchField }) s ∧
    (openPostForModal tok postId index s).ev.head? =
      some (Ev.loadForModalCall ((s.page - 1) * s.limit + index + 1) (some postId)
        s.query s.searchField) ∧
    (s.page = 2 → s.limit = 9 → index = 2 → (s.page - 1) * s.limit + index + 1 = 12) := by
  refine ⟨rfl, ?_, ?_⟩
  · simp only [openPostForModal, loadPostForModalIssue]
    split <;> split <;> simp
  · intro h2 h9 hi
    rw [h2, h9, hi]

/-- Witness for C9 at page 2, limit 9, index 2 (sampleSys has page 1; shift it
to page 2): delegated position is 12. -/
theorem openPostForModal_delegates_global_position_witness :
    1 ≤ ({ sampleSys with page := 2 } : Sys).page ∧
    (openPostForModal 0 11 2 { sampleSys with page := 2 }).ev.head? =
      some (Ev.loadForModalCall 12 (some 11) "" SearchField.title) := by
  refine ⟨by decide, ?_⟩
  have h := (openPostForModal_delegates_global_position 0 11 2
    { sampleSys with page := 2 } (by decide)).2.1
  simpa using h

/-! ### C2 -/

/-- The four repository read calls named by the cache-coherence claims. -/
def isRepoFetchCall : Ev → Bool
  | .getPosts _ _ _ _ => true
  | .getPostById _ => true
  | .getUser _ => true
  | .getPostComments _ => true
  | _ => false

/-- `fetchPostsIssue` never touches the detail cache. -/
theorem fetchPostsIssue_cache_eq (tok : Nat) (r : Bool) (s : Sys) :
    (fetchPostsIssue tok r s).1.postDetailsCache = s.postDetailsCache := by
  unfold fetchPostsIssue
  cases s.listController <;> cases r <;> rfl

/-- C2: the coordinator's `search(query, field)` and `refresh()` clear every
cached detail entry before delegating to the list store, so that a subsequent
`loadPostForModal` for any position misses the cache and issues the
position-scoped `getPosts` fetch instead of serving a stale entry. -/
theorem coordinator_invalidates_detail_cache (s : Sys) (q : String)
    (f : Option SearchField) (tok : Nat) :
    ((coordSearchPostsIssue tok q f s).1.postDetailsCache = [] ∧
      (coordRefreshPostsIssue tok s).1.postDetailsCache = []) ∧
    (∀ (p tok2 : Nat) (ctx : Option SearchContext),
      (loadPostForModalIssue tok2 p none ctx (coordSearchPostsIssue tok q f s).1).pending
          = true ∧
      Ev.getPosts p 1 ((ctx.map (fun c => c.query)).getD "")
          ((ctx.map (fun c => c.field)).getD SearchField.title)
        ∈ (loadPostForModalIssue tok2 p none ctx (coordSearchPostsIssue tok q f s).1).ev ∧
      (loadPostForModalIssue tok2 p none ctx (coordRefreshPostsIssue tok s).1).pending
          = true ∧
      Ev.getPosts p 1 ((ctx.map (fun c => c.query)).getD "")
          ((ctx.map (fun c => c.field)).getD SearchField.title)
        ∈ (loadPostForModalIssue tok2 p none ctx (coordRefreshPostsIssue tok s).1).ev) := by
  have hsearch : (coordSearchPostsIssue tok q f s).1.postDetailsCache = [] := by
    unfold coordSearchPostsIssue searchPostsIssue
    rw [fetchPostsIssue_cache_eq]
    rfl
  have hrefresh : (coordRefreshPostsIssue tok s).1.postDetailsCache = [] := by
    unfold coordRefreshPostsIssue refreshPostsIssue
    rw [fetchPostsIssue_cache_eq]
    rfl
  have hmiss : ∀ (p tok2 : Nat) (ctx : Option SearchContext) (t : Sys),
      t.postDetailsCache = [] →
      (loadPostForModalIssue tok2 p none ctx t).pending = true ∧
      Ev.getPosts p 1 ((ctx.map (fun c => c.query)).getD "")
          ((ctx.map (fun c => c.field)).getD SearchField.title)
        ∈ (loadPostForModalIssue tok2 p none ctx t).ev := by
    intro p tok2 ctx t ht
    rcases hc : t.modalController with _ | tk <;>
      simp [loadPostForModalIssue, ht, hc]
  exact ⟨⟨hsearch, hrefresh⟩,
    fun p tok2 ctx =>
      ⟨(hmiss p tok2 ctx _ hsearch).1, (hmiss p tok2 ctx _ hsearch).2,
       (hmiss p tok2 ctx _ hrefresh).1, (hmiss p tok2 ctx _ hrefresh).2⟩⟩

/-! ### C3 -/

/-- C3: with the search context unchanged since entry `E` was cached at
position `p` (formally: `E` is the entry the position lookup finds, and the
id lookup for `E.post.id` also yields `E`), `loadPostForModal(p)` with no post
id serves `E` synchronously: it becomes the current entry, the loading flag is
cleared, and no `getPosts` / `getPostById` / `getUser` / `getPostComments`
call is made. -/
theorem loadPostForModal_position_cache_hit (tok p : Nat) (ctx : Option SearchContext)
    (s : Sys) (E : CachedPostDetails)
    (hpos : s.postDetailsCache.find?
      (fun (c : CachedPostDetails) => c.position == some p) = some E)
    (hid : s.postDetailsCache.find?
      (fun (c : CachedPostDetails) => c.post.id == E.post.id) = some E) :
    (loadPostForModalIssue tok p none ctx s).pending = false ∧
    (loadPostForModalIssue tok p none ctx s).s.modalRequestedPostId = some E.post.id ∧
    cachedEntry (loadPostForModalIssue tok p none ctx s).s = some E ∧
    (loadPostForModalIssue tok p none ctx s).s.modalPostLoading = false ∧
    (loadPostForModalIssue tok p none ctx s).s.postDetailsCache = s.postDetailsCache ∧
    (∀ ev ∈ (loadPostForModalIssue tok p none ctx s).ev, isRepoFetchCall ev = false) := by
  have hinc : ∀ (rid : Nat) (ev : Ev), ev ∈ incrementViewsIssue rid s →
      isRepoFetchCall ev = false := by
    intro rid ev hev
    unfold incrementViewsIssue at hev
    split at hev
    · simp at hev
    · simp at hev
      simp [hev, isRepoFetchCall]
  rcases hc : s.modalController with _ | tk
  · refine ⟨?_, ?_, ?_, ?_, ?_, ?_⟩ <;>
      simp only [loadPostForModalIssue, hc, hpos, cachedEntry] <;>
      try simp [hid]
    refine ⟨by simp [isRepoFetchCall], ?_⟩
    rcases hm : s.modalRequestedPostId with _ | rid
    · simp
    · exact fun a ha => hinc rid a ha
  · refine ⟨?_, ?_, ?_, ?_, ?_, ?_⟩ <;>
      simp only [loadPostForModalIssue, hc, hpos, cachedEntry] <;>
      try simp [hid]
    refine ⟨by simp [isRepoFetchCall], ?_⟩
    rcases hm : s.modalRequestedPostId with _ | rid
    · simp
    · exact fun a ha => hinc rid a ha

/-- Witness for C3: a state whose cache holds post 7 at position 3;
`loadPostForModal(3)` serves it from the cache. -/
def sampleCachedSys : Sys :=
  { sampleSys with postDetailsCache :=
      [{ post := samplePost 7, user := none, comments := [], position := some 3 }] }

/-- Witness for C3 at position 3 of `sampleCachedSys`. -/
theorem loadPostForModal_position_cache_hit_witness :
    (sampleCachedSys.postDetailsCache.find?
        (fun (c : CachedPostDetails) => c.position == some 3) =
      some { post := samplePost 7, user := none, comments := [], position := some 3 }) ∧
    (loadPostForModalIssue 0 3 none none sampleCachedSys).pending = false ∧
    (loadPostForModalIssue 0 3 none none sampleCachedSys).s.modalRequestedPostId = some 7 := by
  have h := loadPostForModal_position_cache_hit 0 3 none sampleCachedSys
    { post := samplePost 7, user := none, comments := [], position := some 3 }
    (by decide) (by decide)
  exact ⟨by decide, h.1, h.2.1⟩

/-! ### Association-list and updateFirst lemmas -/

theorem mlookup_nil {κ α : Type} [BEq κ] (k : κ) : mlookup ([] : List (κ × α)) k = none := rfl

theorem mlookup_cons {κ α : Type} [BEq κ] (p : κ × α) (m : List (κ × α)) (k : κ) :
    mlookup (p :: m) k = if p.1 == k then some p.2 else mlookup m k := by
  by_cases h : p.1 == k <;> simp [mlookup, List.find?_cons, h]

theorem mlookup_mset {κ α : Type} [BEq κ] [LawfulBEq κ] (m : List (κ × α)) (k k2 : κ) (v : α) :
    mlookup (mset m k v) k2 = if k2 == k then some v else mlookup m k2 := by
  induction m with
  | nil =>
    by_cases h : k2 = k
    · subst h
      simp [mset, mlookup_cons]
    · have h1 : (k == k2) = false := beq_eq_false_iff_ne.mpr (fun hh => h hh.symm)
      have h2 : (k2 == k) = false := beq_eq_false_iff_ne.mpr h
      simp [mset, mlookup_cons, h1, h2, mlookup_nil]
  | cons p ps ih =>
    by_cases hp : p.1 = k
    · have hpk : (p.1 == k) = true := by simp [hp]
      by_cases h : k2 = k
      · subst h
        simp [mset, hpk, mlookup_cons]
      · have h1 : (k == k2) = false := beq_eq_false_iff_ne.mpr (fun hh => h hh.symm)
        have h2 : (k2 == k) = false := beq_eq_false_iff_ne.mpr h
        have h3 : (p.1 == k2) = false := by rw [hp]; exact h1
        simp [mset, hpk, mlookup_cons, h1, h2, h3]
    · have hpk : (p.1 == k) = false := beq_eq_false_iff_ne.mpr hp
      by_cases h : k2 = k
      · subst h
        simp [mset, hpk, mlookup_cons, hpk, ih]
      · have h2 : (k2 == k) = false := beq_eq_false_iff_ne.mpr h
        simp [mset, hpk, mlookup_cons, ih, h2]

theorem mdel_cons {κ α : Type} [BEq κ] (p : κ × α) (ps : List (κ × α)) (k : κ) :
    mdel (p :: ps) k = if p.1 == k then mdel ps k else p :: mdel ps k := by
  by_cases hp : (p.1 == k) = true <;> simp_all [mdel, List.filter_cons]

theorem mlookup_mdel {κ α : Type} [BEq κ] [LawfulBEq κ] (m : List (κ × α)) (k k2 : κ) :
    mlookup (mdel m k) k2 = if k2 == k then none else mlookup m k2 := by
  induction m with
  | nil => simp [mdel, mlookup_nil]
  | cons p ps ih =>
    by_cases hp : p.1 = k
    · have hpk : (p.1 == k) = true := by simp [hp]
      by_cases h : k2 = k
      · subst h
        simp [mdel_cons, hpk, ih]
      · have h2 : (k2 == k) = false := beq_eq_false_iff_ne.mpr h
        have h3 : (p.1 == k2) = false := by
          rw [hp]; exact beq_eq_false_iff_ne.mpr (fun hh => h hh.symm)
        simp [mdel_cons, hpk, ih, h2, mlookup_cons, h3]
    · have hpk : (p.1 == k) = false := beq_eq_false_iff_ne.mpr hp
      by_cases h : k2 = k
      · subst h
        simp [mdel_cons, hpk, mlookup_cons, hpk, ih]
      · have h2 : (k2 == k) = false := beq_eq_false_iff_ne.mpr h
        simp [mdel_cons, hpk, mlookup_cons, ih, h2]

theorem mlookup_msetOpt {κ α : Type} [BEq κ] [LawfulBEq κ] (m : List (κ × α)) (k k2 : κ)
    (o : Option α) :
    mlookup (msetOpt m k o) k2 = if k2 == k then o else mlookup m k2 := by
  cases o <;> simp [msetOpt, mlookup_mset, mlookup_mdel]

/-- Undoing an in-place mutation of the first match restores the list. -/
theorem updateFirst_cancel {α : Type} (p : α → Bool) (f g : α → α) :
    ∀ (l : List α) (x0 : α), l.find? p = some x0 → p (f x0) = true → g (f x0) = x0 →
      updateFirst p g (updateFirst p f l) = l := by
  intro l
  induction l with
  | nil => intro x0 h; simp at h
  | cons a as ih =>
    intro x0 hfind hpf hgf
    by_cases hpa : p a
    · rw [List.find?_cons_of_pos _ hpa] at hfind
      obtain rfl : a = x0 := by simpa using hfind
      simp [updateFirst, hpa, hpf, hgf]
    · rw [List.find?_cons_of_neg _ hpa] at hfind
      simp [updateFirst, hpa, ih x0 hfind hpf hgf]

/-- After an in-place mutation of the first match, the first match is the
mutated element. -/
theorem find?_updateFirst_self {α : Type} (p : α → Bool) (f : α → α) :
    ∀ (l : List α) (x0 : α), l.find? p = some x0 → p (f x0) = true →
      (updateFirst p f l).find? p = some (f x0) := by
  intro l
  induction l with
  | nil => intro x0 h; simp at h
  | cons a as ih =>
    intro x0 hfind hpf
    by_cases hpa : p a
    · rw [List.find?_cons_of_pos _ hpa] at hfind
      obtain rfl : a = x0 := by simpa using hfind
      simp [updateFirst, hpa, List.find?_cons_of_pos _ hpf]
    · rw [List.find?_cons_of_neg _ hpa] at hfind
      simp [updateFirst, hpa, List.find?_cons_of_neg _ hpa, ih x0 hfind hpf]

/-! ### C4 -/

/-- C4: for a post present in the detail cache, when `toggleReaction` applies
its optimistic update and the network call then fails, the cached post's
reaction counts and the per-user reaction map are restored exactly to their
pre-call values, and the persisted per-user storage slice holds the rolled-back
map; `toggleReaction` is a no-op when the post is not in the cache. -/
theorem toggleReaction_failure_rolls_back :
    (∀ (postId : Nat) (r : UserPostReaction) (uid : Option Nat) (e : ErrVal) (s : Sys)
        (E : CachedPostDetails), findCached s postId = some E →
      (toggleReaction postId r uid (some e) s).1.postDetailsCache = s.postDetailsCache ∧
      (∀ k, mlookup (toggleReaction postId r uid (some e) s).1.userReactions k =
        mlookup s.userReactions k) ∧
      mlookup (toggleReaction postId r uid (some e) s).1.storage.userReactions (userIdKey uid) =
        some (toggleReaction postId r uid (some e) s).1.userReactions) ∧
    (∀ (postId : Nat) (r : UserPostReaction) (uid : Option Nat) (out : Option ErrVal) (s : Sys),
      findCached s postId = none → toggleReaction postId r uid out s = (s, [])) := by
  constructor
  · intro postId r uid e s E hc
    have hpE : (E.post.id == postId) = true := by
      have := List.find?_some hc
      simpa using this
    simp only [toggleReaction, hc]
    refine ⟨?_, ?_, ?_⟩
    · exact updateFirst_cancel _ _ _ s.postDetailsCache E hc hpE rfl
    · intro k
      by_cases hk : k = postId
      · subst hk
        simp [mlookup_msetOpt]
      · have hkf : (k == postId) = false := beq_eq_false_iff_ne.mpr hk
        simp [mlookup_msetOpt, hkf]
    · simp [mlookup_mset]
  · intro postId r uid out s hc
    simp [toggleReaction, hc]

/-- Witness state for C4: post 7 cached, current user 1 already likes it, and
storage holds that slice. -/
def sampleReactSys : Sys :=
  { sampleSys with
    postDetailsCache := [{ post := samplePost 7, user := none, comments := [],
                           position := some 3 }],
    userReactions := [(7, UserPostReaction.like)],
    storage := { emptyStorage with userReactions := [("1", [(7, UserPostReaction.like)])] } }

/-- Witness for C4: toggling 'like' on post 7 with a failing network call rolls
everything back; post 99 is not cached, so toggling it is a no-op. -/
theorem toggleReaction_failure_rolls_back_witness :
    (findCached sampleReactSys 7 =
      some { post := samplePost 7, user := none, comments := [], position := some 3 }) ∧
    (toggleReaction 7 UserPostReaction.like (some 1) (some ⟨false, some 500⟩)
        sampleReactSys).1.postDetailsCache = sampleReactSys.postDetailsCache ∧
    (toggleReaction 99 UserPostReaction.like (some 1) none sampleReactSys =
      (sampleReactSys, [])) := by
  refine ⟨by decide, ?_, ?_⟩
  · exact ((toggleReaction_failure_rolls_back.1 7 UserPostReaction.like (some 1)
      ⟨false, some 500⟩ sampleReactSys
      { post := samplePost 7, user := none, comments := [], position := some 3 }
      (by decide))).1
  · exact toggleReaction_failure_rolls_back.2 99 UserPostReaction.like (some 1) none
      sampleReactSys (by decide)

/-! ### C8 -/

/-- Recognises the `patchPostViews` network call. -/
def isViewPatch : Ev → Bool
  | .patchPostViews _ _ => true
  | _ => false

/-- `updatePostInList` performs no view-patch network call and leaves the
details store untouched. -/
theorem updatePostInList_frame (postId : Nat) (f : PostPatchFields) (s : Sys) :
    (updatePostInList postId f s).2.countP isViewPatch = 0 ∧
    (updatePostInList postId f s).1.viewedPostIds = s.viewedPostIds ∧
    (updatePostInList postId f s).1.postDetailsCache = s.postDetailsCache := by
  unfold updatePostInList saveListToStorage
  split <;> simp [isViewPatch]

/-- C8: calling `incrementViews(postId)` twice in one session, the first call
completing successfully before the second begins, makes exactly one
`patchPostViews` network call and increments the cached post's view count
exactly once: the second call is a no-op because the id is recorded as
viewed. -/
theorem incrementViews_idempotent_per_session (postId : Nat) (s : Sys)
    (E : CachedPostDetails)
    (hnv : s.viewedPostIds.contains postId = false)
    (hc : findCached s postId = some E) :
    (∀ out2 : Option ErrVal,
      incrementViews postId out2 (incrementViews postId none s).1 =
        ((incrementViews postId none s).1, [])) ∧
    (incrementViews postId none s).2.countP isViewPatch = 1 ∧
    ((findCached (incrementViews postId none s).1 postId).map (fun c => c.post.views) =
      some (E.post.views + 1)) := by
  have hpE : (E.post.id == postId) = true := by
    have := List.find?_some hc
    simpa using this
  obtain ⟨s1, ev1, hu⟩ : ∃ s1 ev1,
      updatePostInList postId ⟨none, none, some (E.post.views + 1)⟩
        (viewsCacheUpdated postId (E.post.views + 1) s) = (s1, ev1) :=
    ⟨_, _, rfl⟩
  have hshape : incrementViews postId none s =
      ({ s1 with viewedPostIds := s1.viewedPostIds ++ [postId],
                 storage := { s1.storage with viewedIds := s1.viewedPostIds ++ [postId] } },
       Ev.patchPostViews postId (E.post.views + 1) ::
         (ev1 ++ [Ev.storeWrite "post_details_viewed_ids"])) := by
    simp only [incrementViews, hnv, hc, Option.map_some', Option.getD_some, Bool.false_eq_true,
      if_false, hu]
    rfl
  have hframe := updatePostInList_frame postId ⟨none, none, some (E.post.views + 1)⟩
    (viewsCacheUpdated postId (E.post.views + 1) s)
  rw [hu] at hframe
  have hview1 : s1.viewedPostIds = s.viewedPostIds := by
    simpa [viewsCacheUpdated] using hframe.2.1
  have hcache1 : s1.postDetailsCache =
      updateFirst (fun (c : CachedPostDetails) => c.post.id == postId)
        (fun c => { c with post := { c.post with views := E.post.views + 1 } })
        s.postDetailsCache := by
    simpa [viewsCacheUpdated] using hframe.2.2
  refine ⟨?_, ?_, ?_⟩
  · intro out2
    rw [hshape]
    have hmem : (s1.viewedPostIds ++ [postId]).contains postId = true := by simp
    simp [incrementViews, hmem]
  · rw [hshape]
    simp [List.countP_cons, isViewPatch, hframe.1]
  · rw [hshape]
    have hfind : (updateFirst (fun (c : CachedPostDetails) => c.post.id == postId)
        (fun c => { c with post := { c.post with views := E.post.views + 1 } })
        s.postDetailsCache).find? (fun (c : CachedPostDetails) => c.post.id == postId) =
        some { E with post := { E.post with views := E.post.views + 1 } } :=
      find?_updateFirst_self _ _ s.postDetailsCache E hc hpE
    simp [findCached, hcache1, hfind]

/-- Witness for C8 on `sampleCachedSys` (post 7 cached with 5 views, not yet
viewed): the second call is a no-op and the cached count becomes 6. -/
theorem incrementViews_idempotent_per_session_witness :
    (sampleCachedSys.viewedPostIds.contains 7 = false) ∧
    (incrementViews 7 none (incrementViews 7 none sampleCachedSys).1 =
      ((incrementViews 7 none sampleCachedSys).1, [])) ∧
    ((findCached (incrementViews 7 none sampleCachedSys).1 7).map (fun c => c.post.views) =
      some 6) := by
  have h := incrementViews_idempotent_per_session 7 sampleCachedSys
    { post := samplePost 7, user := none, comments := [], position := some 3 }
    (by decide) (by decide)
  exact ⟨by decide, h.1 none, by simpa [samplePost] using h.2.2⟩

/-! ### C5 -/

/-- C5 counterexample: with post 7 cached (5 views) and not yet viewed,
`incrementViews(7)` issues `patchPostViews(7, 6)` as its FIRST action; when the
call fails the state is returned unchanged and no storage write ever occurred,
so the local effect was neither applied nor persisted before the network
call — contrary to the claim that every view mutation applies and persists its
local effect before the network call and persists a restoration on failure. -/
theorem incrementViews_network_call_first_cex :
    incrementViews 7 (some ⟨false, some 500⟩) sampleCachedSys =
      (sampleCachedSys, [Ev.patchPostViews 7 6, Ev.logError "Error incrementing views:"]) := by
  rfl

/-- Undoing an in-place mutation of a comment's like count inside the found
cache entry restores the cache exactly. -/
theorem setCommentLikes_cancel (cid v : Nat) (l : List CachedPostDetails)
    (E : CachedPostDetails) (cm : CommentDto)
    (hfind : l.find? (fun (c : CachedPostDetails) => c.post.id == E.post.id) = some E)
    (hcm : E.comments.find? (fun (c2 : CommentDto) => c2.id == cid) = some cm) :
    updateFirst (fun (c : CachedPostDetails) => c.post.id == E.post.id)
      (setLikesIn cid cm.likes)
      (updateFirst (fun (c : CachedPostDetails) => c.post.id == E.post.id)
        (setLikesIn cid v) l) = l := by
  have hq : (cm.id == cid) = true := by
    have := List.find?_some hcm
    simpa using this
  have hinner : updateFirst (fun (c2 : CommentDto) => c2.id == cid)
      (fun c2 => { c2 with likes := cm.likes })
      (updateFirst (fun (c2 : CommentDto) => c2.id == cid)
        (fun c2 => { c2 with likes := v }) E.comments) = E.comments :=
    updateFirst_cancel _ _ _ E.comments cm hcm hq rfl
  have hgf : setLikesIn cid cm.likes (setLikesIn cid v E) = E := by
    cases E with
    | mk post user comments position => simpa [setLikesIn] using hinner
  refine updateFirst_cancel _ _ _ l E hfind ?_ hgf
  simp [setLikesIn]

/-- C5 amended: `toggleReaction` and `toggleCommentLike` apply their local
effect and persist it before issuing their network call — on success the event
trace is exactly the storage write followed by the patch call, with no further
write — and only on network failure do they restore the pre-mutation values
and persist that rollback: a second storage write follows the patch call, the
cache is back at its pre-call value, the per-user reaction map / liked-comment
set is restored, and the persisted per-user slice holds the restored value;
`incrementViews` instead issues its network call first: on failure nothing is
applied or persisted, and on success the local effect and its persistence
follow the call. -/
theorem mutation_effect_order :
    (∀ (postId : Nat) (r : UserPostReaction) (uid : Option Nat) (s : Sys)
        (E : CachedPostDetails), findCached s postId = some E →
      (∃ v, (toggleReaction postId r uid none s).2 =
        [Ev.storeWrite "post_user_reactions", Ev.patchPostReactions postId v]) ∧
      (∀ e : ErrVal,
        (∃ v rest, (toggleReaction postId r uid (some e) s).2 =
          Ev.storeWrite "post_user_reactions" :: Ev.patchPostReactions postId v ::
            Ev.storeWrite "post_user_reactions" :: rest) ∧
        (toggleReaction postId r uid (some e) s).1.postDetailsCache = s.postDetailsCache ∧
        (∀ k, mlookup (toggleReaction postId r uid (some e) s).1.userReactions k =
          mlookup s.userReactions k) ∧
        mlookup (toggleReaction postId r uid (some e) s).1.storage.userReactions
          (userIdKey uid) = some (toggleReaction postId r uid (some e) s).1.userReactions)) ∧
    (∀ (commentId : Nat) (uid : Option Nat) (s : Sys) (E : CachedPostDetails)
        (cm : CommentDto), cachedEntry s = some E →
      E.comments.find? (fun (c2 : CommentDto) => c2.id == commentId) = some cm →
      (∃ v, (toggleCommentLike commentId uid none s).2 =
        [Ev.storeWrite "post_liked_comments", Ev.patchCommentLikes commentId v]) ∧
      (∀ e : ErrVal,
        (∃ v rest, (toggleCommentLike commentId uid (some e) s).2 =
          Ev.storeWrite "post_liked_comments" :: Ev.patchCommentLikes commentId v ::
            Ev.storeWrite "post_liked_comments" :: rest) ∧
        (toggleCommentLike commentId uid (some e) s).1.postDetailsCache =
          s.postDetailsCache ∧
        (∀ k, k ∈ (toggleCommentLike commentId uid (some e) s).1.likedCommentIds ↔
          k ∈ s.likedCommentIds) ∧
        mlookup (toggleCommentLike commentId uid (some e) s).1.storage.likedComments
          (userIdKey uid) =
          some (toggleCommentLike commentId uid (some e) s).1.likedCommentIds)) ∧
    (∀ (postId : Nat) (s : Sys), s.viewedPostIds.contains postId = false →
      (∀ out, (incrementViews postId out s).2.head? =
        some (Ev.patchPostViews postId
          (((findCached s postId).map (fun c => c.post.views)).getD 0 + 1))) ∧
      (∀ e, (incrementViews postId (some e) s).1 = s) ∧
      ((incrementViews postId none s).2.getLast? =
        some (Ev.storeWrite "post_details_viewed_ids"))) := by
  refine ⟨?_, ?_, ?_⟩
  · intro postId r uid s E hc
    have hpE : (E.post.id == postId) = true := by
      have := List.find?_some hc
      simpa using this
    constructor
    · simp only [toggleReaction, hc]
      exact ⟨_, rfl⟩
    · intro e
      refine ⟨?_, ?_, ?_, ?_⟩
      · simp only [toggleReaction, hc]
        exact ⟨_, _, rfl⟩
      · simp only [toggleReaction, hc]
        exact updateFirst_cancel _ _ _ s.postDetailsCache E hc hpE rfl
      · intro k
        by_cases hk : k = postId
        · subst hk
          simp only [toggleReaction, hc]
          simp [mlookup_msetOpt]
        · have hkf : (k == postId) = false := beq_eq_false_iff_ne.mpr hk
          simp only [toggleReaction, hc]
          simp [mlookup_msetOpt, hkf]
      · simp only [toggleReaction, hc]
        simp [mlookup_mset]
  · intro commentId uid s E cm hce hcm
    obtain ⟨rid, hridq, hfind0⟩ : ∃ rid, s.modalRequestedPostId = some rid ∧
        s.postDetailsCache.find? (fun (c : CachedPostDetails) => c.post.id == rid) = some E := by
      unfold cachedEntry at hce
      rcases h : s.modalRequestedPostId with _ | rid
      · rw [h] at hce
        cases hce
      · rw [h] at hce
        exact ⟨rid, rfl, hce⟩
    have hEid : E.post.id = rid := by
      simpa using List.find?_some hfind0
    have hfind : s.postDetailsCache.find?
        (fun (c : CachedPostDetails) => c.post.id == E.post.id) = some E := by
      simp only [hEid]
      exact hfind0
    constructor
    · simp only [toggleCommentLike, hce, hcm]
      exact ⟨_, rfl⟩
    · intro e
      refine ⟨?_, ?_, ?_, ?_⟩
      · simp only [toggleCommentLike, hce, hcm]
        exact ⟨_, _, rfl⟩
      · by_cases hmem : commentId ∈ s.likedCommentIds
        · simp [toggleCommentLike, hce, hcm, hmem]
          exact setCommentLikes_cancel commentId _ s.postDetailsCache E cm hfind hcm
        · simp [toggleCommentLike, hce, hcm, hmem]
          exact setCommentLikes_cancel commentId _ s.postDetailsCache E cm hfind hcm
      · intro k
        by_cases hmem : commentId ∈ s.likedCommentIds
        · by_cases hk : k = commentId
          · subst hk
            simp only [toggleCommentLike, hce, hcm]
            simp [List.mem_filter, List.mem_append, hmem]
          · have hkf : (k == commentId) = false := beq_eq_false_iff_ne.mpr hk
            simp only [toggleCommentLike, hce, hcm]
            simp [List.mem_filter, List.mem_append, hmem, hk, hkf]
        · by_cases hk : k = commentId
          · subst hk
            simp only [toggleCommentLike, hce, hcm]
            simp [List.mem_filter, List.mem_append, hmem]
          · have hkf : (k == commentId) = false := beq_eq_false_iff_ne.mpr hk
            simp only [toggleCommentLike, hce, hcm]
            simp [List.mem_filter, List.mem_append, hmem, hk, hkf]
      · by_cases hmem : commentId ∈ s.likedCommentIds <;>
          simp [toggleCommentLike, hce, hcm, hmem, mlookup_mset]
  · intro postId s hnv
    have hnv2 : postId ∉ s.viewedPostIds := by simpa using hnv
    refine ⟨?_, ?_, ?_⟩
    · intro out
      rcases out with _ | e <;> simp [incrementViews, hnv2]
    · intro e
      simp [incrementViews, hnv2]
    · have hlast : ∀ (a x : Ev) (l : List Ev), (a :: (l ++ [x])).getLast? = some x := by
        intro a x l
        rw [← List.cons_append]
        exact List.getLast?_concat _
      simp only [incrementViews, hnv, Bool.false_eq_true, if_false]
      exact hlast _ _ _

/-! ### Cancellation lemmas for the list fetch (C1, C6) -/

/-- Outcomes a request canceled while still in flight can deliver: an
AbortError rejection (abort before the promise settled), or a success whose
continuation runs after the abort and therefore observes `signal.aborted`.
A late non-abort rejection would require the promise to have settled before
the cancelling request was issued, which the overlap hypothesis excludes. -/
def canceledFetchOutcome : FetchOutcome → Prop
  | .success _ _ _ => True
  | .failure e => e.isAbort = true

/-- A canceled `fetchPosts` resolution only runs its `finally` clause: the
loading flag drops and the controller ref clears, nothing else changes. -/
theorem fetchPostsResolve_canceled (tok : Nat) (o : FetchOutcome) (s : Sys)
    (h : s.listAborted.contains tok = true) (hco : canceledFetchOutcome o) :
    (fetchPostsResolve tok o s).s = { s with isLoading := false, listController := none } := by
  have hm : tok ∈ s.listAborted := by simpa using h
  cases o with
  | success p t tp => simp [fetchPostsResolve, hm]
  | failure e =>
    have he : e.isAbort = true := hco
    simp [fetchPostsResolve, he]

/-- `fetchPosts` resolution does not read the loading flag or the controller
ref, so its result is unchanged when only those two fields differ. -/
theorem fetchPostsResolve_flag_indep (tok : Nat) (o : FetchOutcome) (s : Sys) (b : Bool)
    (c : Option Nat) :
    fetchPostsResolve tok o { s with isLoading := b, listController := c } =
      fetchPostsResolve tok o s := by
  cases s
  cases o <;> simp only [fetchPostsResolve] <;> split <;> (try split) <;>
    simp [saveListToStorage, recalculateTotalPages, storedListState]

/-- Every completed `fetchPosts` resolution ends with the loading flag down and
the controller ref cleared, and never touches the aborted set. -/
theorem fetchPostsResolve_ends_quiet (tok : Nat) (o : FetchOutcome) (s : Sys) :
    (fetchPostsResolve tok o s).s.isLoading = false ∧
    (fetchPostsResolve tok o s).s.listController = none ∧
    (fetchPostsResolve tok o s).s.listAborted = s.listAborted := by
  cases o <;> simp only [fetchPostsResolve] <;> split <;>
    simp [saveListToStorage, recalculateTotalPages, storedListState] <;> (try split) <;> simp

/-- Setting already-cleared flags is the identity. -/
theorem set_list_flags_self (s : Sys) (h1 : s.isLoading = false) (h2 : s.listController = none) :
    { s with isLoading := false, listController := none } = s := by
  cases s
  simp_all

/-- After issuing, the list controller holds the new token and the previous
in-flight token (if any) is aborted. -/
theorem fetchPostsIssue_ctrl (tok : Nat) (r : Bool) (s : Sys) :
    (fetchPostsIssue tok r s).1.listController = some tok ∧
    (fetchPostsIssue tok r s).1.listAborted =
      (match s.listController with | some t => t :: s.listAborted | none => s.listAborted) := by
  unfold fetchPostsIssue
  cases s.listController <;> cases r <;> simp

/-! ### Cancellation lemmas for the modal detail load (C1, C6) -/

/-- Outcomes a detail fetch canceled while still in flight can deliver
(AbortError rejection, or a late success observed under an aborted signal). -/
def canceledSettled {α : Type} : SettledRes α → Prop
  | .fulfilled _ => True
  | .rejected e => e.isAbort = true

/-- `getPostById(pid)` returns the post with id `pid` when it succeeds (the
repository contract). -/
def byIdWellFormed (pid : Nat) : SettledRes PostDto → Prop
  | .fulfilled post => post.id = pid
  | .rejected _ => True

/-- The resolve phase of `loadPostForModal`, dispatching on whether the call
was id-based or position-based (only the outcome matching the dispatch is
consulted). -/
def loadResolve (tok position : Nat) (postId : Option Nat) (outById : SettledRes PostDto)
    (outByPos : SettledRes (List PostDto)) (u : SettledRes (Option UserDto))
    (c : SettledRes (List CommentDto)) (s : Sys) : LoadRes :=
  match postId with
  | some pid => loadByIdResolve tok pid position outById u c s
  | none => loadByPositionResolve tok position outByPos u c s

/-- The `finally` clause is the identity once the flags are already down and
the controller is not owned by this request. -/
theorem loadFinally_noop (tok : Nat) (postId : Option Nat) (s : Sys)
    (hload : s.modalPostLoading = false) (hctrl : s.modalController ≠ some tok) :
    loadFinally tok postId s = s := by
  have hc : (s.modalController == some tok) = false := beq_eq_false_iff_ne.mpr hctrl
  have hself : { s with modalPostLoading := false } = s := by cases s; simp_all
  unfold loadFinally
  cases postId with
  | none => simp [hself, hc]
  | some pid =>
    by_cases h : (s.modalRequestedPostId == some pid) = true
    · simp [h, hself, hc]
    · simp only [Bool.not_eq_true] at h
      simp [h, hc]

/-- The `finally` clause changes nothing but the loading flag when the
controller is not owned by this request. -/
theorem loadFinally_shape (tok : Nat) (postId : Option Nat) (s : Sys)
    (hctrl : s.modalController ≠ some tok) :
    ∃ b : Bool, loadFinally tok postId s = { s with modalPostLoading := b } := by
  have hc : (s.modalController == some tok) = false := beq_eq_false_iff_ne.mpr hctrl
  unfold loadFinally
  cases postId with
  | none => exact ⟨false, by simp [hc]⟩
  | some pid =>
    by_cases h : (s.modalRequestedPostId == some pid) = true
    · exact ⟨false, by simp [h, hc]⟩
    · refine ⟨s.modalPostLoading, ?_⟩
      simp only [Bool.not_eq_true] at h
      have hself : { s with modalPostLoading := s.modalPostLoading } = s := by cases s; rfl
      simp [h, hc, hself]

/-- A canceled id-based resolution only runs its `finally` clause. -/
theorem loadByIdResolve_canceled (tok pid position : Nat) (out : SettledRes PostDto)
    (u : SettledRes (Option UserDto)) (c : SettledRes (List CommentDto)) (s : Sys)
    (h : s.modalAborted.contains tok = true) (hco : canceledSettled out) :
    (loadByIdResolve tok pid position out u c s).s = loadFinally tok (some pid) s := by
  have hm : tok ∈ s.modalAborted := by simpa using h
  cases out with
  | rejected e => rfl
  | fulfilled post => simp [loadByIdResolve, hm]

/-- A canceled position-based resolution only runs its `finally` clause. -/
theorem loadByPositionResolve_canceled (tok position : Nat) (out : SettledRes (List PostDto))
    (u : SettledRes (Option UserDto)) (c : SettledRes (List CommentDto)) (s : Sys)
    (h : s.modalAborted.contains tok = true) (hco : canceledSettled out) :
    (loadByPositionResolve tok position out u c s).s = loadFinally tok none s := by
  have hm : tok ∈ s.modalAborted := by simpa using h
  cases out with
  | rejected e => rfl
  | fulfilled posts => simp [loadByPositionResolve, hm]

/-- The enrichment stage threads the loading flag through untouched. -/
theorem loadStage2_flag (tok position : Nat) (post : PostDto)
    (u : SettledRes (Option UserDto)) (c : SettledRes (List CommentDto)) (s : Sys) (b : Bool) :
    loadStage2 tok position post u c { s with modalPostLoading := b } =
      ({ (loadStage2 tok position post u c s).1 with modalPostLoading := b },
       (loadStage2 tok position post u c s).2) := by
  cases s
  unfold loadStage2
  split <;> rfl

/-- When not aborted, the enrichment stage makes the fetched post current and
leaves flags, controller and the aborted set alone. -/
theorem loadStage2_post (tok position : Nat) (post : PostDto)
    (u : SettledRes (Option UserDto)) (c : SettledRes (List CommentDto)) (s : Sys)
    (h : s.modalAborted.contains tok = false) :
    (loadStage2 tok position post u c s).1.modalRequestedPostId = some post.id ∧
    (loadStage2 tok position post u c s).1.modalPostLoading = s.modalPostLoading ∧
    (loadStage2 tok position post u c s).1.modalController = s.modalController ∧
    (loadStage2 tok position post u c s).1.modalAborted = s.modalAborted := by
  have hm : tok ∉ s.modalAborted := by simpa using h
  simp [loadStage2, hm]

/-- The `finally` clause of a position-based call ignores the incoming loading
flag. -/
theorem loadFinally_flag_indep_none (tok : Nat) (s : Sys) (b : Bool) :
    loadFinally tok none { s with modalPostLoading := b } = loadFinally tok none s := by
  cases s
  unfold loadFinally
  rfl

/-- The `finally` clause of an id-based call ignores the incoming loading flag
while that id is still the requested one. -/
theorem loadFinally_flag_indep_some (tok pid : Nat) (s : Sys) (b : Bool)
    (hreq : s.modalRequestedPostId = some pid) :
    loadFinally tok (some pid) { s with modalPostLoading := b } =
      loadFinally tok (some pid) s := by
  have hr : (s.modalRequestedPostId == some pid) = true := by simp [hreq]
  cases s
  unfold loadFinally
  simp_all

/-- An id-based resolution does not depend on the incoming loading flag, as
long as the requested id matches and a successful response carries that id. -/
theorem loadByIdResolve_flag_indep (tok pid position : Nat) (out : SettledRes PostDto)
    (u : SettledRes (Option UserDto)) (c : SettledRes (List CommentDto)) (s : Sys) (b : Bool)
    (hreq : s.modalRequestedPostId = some pid) (hwf : byIdWellFormed pid out) :
    loadByIdResolve tok pid position out u c { s with modalPostLoading := b } =
      loadByIdResolve tok pid position out u c s := by
  cases out with
  | rejected e =>
    simp only [loadByIdResolve]
    rw [loadFinally_flag_indep_some tok pid s b hreq]
  | fulfilled post =>
    have hid : post.id = pid := hwf
    by_cases hab : (s.modalAborted.contains tok) = true
    · have hm : tok ∈ s.modalAborted := by simpa using hab
      have hfin := loadFinally_flag_indep_some tok pid s b hreq
      simp [loadByIdResolve, hm, hfin]
    · have hm : tok ∉ s.modalAborted := by simpa using hab
      have hab2 : s.modalAborted.contains tok = false := by simpa using hm
      have hpost := loadStage2_post tok position post u c s hab2
      have hreq2 : (loadStage2 tok position post u c s).1.modalRequestedPostId = some pid := by
        rw [hpost.1, hid]
      have hfin := loadFinally_flag_indep_some tok pid
        (loadStage2 tok position post u c s).1 b hreq2
      have hb1 : (({ s with modalPostLoading := b } : Sys).modalAborted.contains tok ||
          !(({ s with modalPostLoading := b } : Sys).modalRequestedPostId == some pid))
          = false := by
        simp [hreq, hm]
      have hb2 : (s.modalAborted.contains tok || !(s.modalRequestedPostId == some pid))
          = false := by
        simp [hreq, hm]
      simp only [loadByIdResolve, hb1, hb2, Bool.false_eq_true, if_false]
      rw [loadStage2_flag, hfin]

/-- A position-based resolution does not depend on the incoming loading flag. -/
theorem loadByPositionResolve_flag_indep (tok position : Nat) (out : SettledRes (List PostDto))
    (u : SettledRes (Option UserDto)) (c : SettledRes (List CommentDto)) (s : Sys) (b : Bool) :
    loadByPositionResolve tok position out u c { s with modalPostLoading := b } =
      loadByPositionResolve tok position out u c s := by
  cases out with
  | rejected e =>
    simp only [loadByPositionResolve]
    rw [loadFinally_flag_indep_none tok s b]
  | fulfilled posts =>
    by_cases hab : (s.modalAborted.contains tok) = true
    · have hm : tok ∈ s.modalAborted := by simpa using hab
      have hfin := loadFinally_flag_indep_none tok s b
      simp [loadByPositionResolve, hm, hfin]
    · have hm : tok ∉ s.modalAborted := by simpa using hab
      cases hhd : posts.head? with
      | none =>
        have hmid : { { s with modalPostLoading := b } with modalPostLoading := false } =
            { s with modalPostLoading := false } := by cases s; rfl
        simp [loadByPositionResolve, hm, hhd, hmid]
      | some post =>
        have hb1 : (({ s with modalPostLoading := b } : Sys).modalAborted.contains tok)
            = false := by simpa using hm
        have hb2 : (s.modalAborted.contains tok) = false := by simpa using hm
        have hlast := loadFinally_flag_indep_none tok (loadStage2 tok position post u c s).1 b
        simp only [loadByPositionResolve, hb1, hb2, Bool.false_eq_true, if_false, hhd]
        rw [loadStage2_flag, hlast]

/-- Every completed id-based resolution ends with the loading flag down, the
controller released, and the aborted set untouched, provided the request owns
the controller and the requested id still matches. -/
theorem loadByIdResolve_ends (tok pid position : Nat) (out : SettledRes PostDto)
    (u : SettledRes (Option UserDto)) (c : SettledRes (List CommentDto)) (s : Sys)
    (hreq : s.modalRequestedPostId = some pid) (hwf : byIdWellFormed pid out)
    (hctrl : s.modalController = some tok) :
    (loadByIdResolve tok pid position out u c s).s.modalPostLoading = false ∧
    (loadByIdResolve tok pid position out u c s).s.modalController = none ∧
    (loadByIdResolve tok pid position out u c s).s.modalAborted = s.modalAborted := by
  have hr : (s.modalRequestedPostId == some pid) = true := by simp [hreq]
  have hc : (s.modalController == some tok) = true := by simp [hctrl]
  cases out with
  | rejected e =>
    simp [loadByIdResolve, loadFinally, hr, hc]
  | fulfilled post =>
    have hid : post.id = pid := hwf
    by_cases hab : (s.modalAborted.contains tok) = true
    · have hm : tok ∈ s.modalAborted := by simpa using hab
      simp [loadByIdResolve, loadFinally, hm, hr, hc]
    · have hm : tok ∉ s.modalAborted := by simpa using hab
      have hab2 : s.modalAborted.contains tok = false := by simpa using hm
      have hpost := loadStage2_post tok position post u c s hab2
      have hreq2 : ((loadStage2 tok position post u c s).1.modalRequestedPostId == some pid)
          = true := by simp [hpost.1, hid]
      have hc2 : ((loadStage2 tok position post u c s).1.modalController == some tok) = true := by
        simp [hpost.2.2.1, hctrl]
      simp [loadByIdResolve, hm, hreq, loadFinally, hreq2, hc2, hpost.2.2.2]

/-- Every completed position-based resolution ends with the loading flag down,
the controller released, and the aborted set untouched, provided the request
owns the controller. -/
theorem loadByPositionResolve_ends (tok position : Nat) (out : SettledRes (List PostDto))
    (u : SettledRes (Option UserDto)) (c : SettledRes (List CommentDto)) (s : Sys)
    (hctrl : s.modalController = some tok) :
    (loadByPositionResolve tok position out u c s).s.modalPostLoading = false ∧
    (loadByPositionResolve tok position out u c s).s.modalController = none ∧
    (loadByPositionResolve tok position out u c s).s.modalAborted = s.modalAborted := by
  have hc : (s.modalController == some tok) = true := by simp [hctrl]
  cases out with
  | rejected e => simp [loadByPositionResolve, loadFinally, hc]
  | fulfilled posts =>
    by_cases hab : (s.modalAborted.contains tok) = true
    · have hm : tok ∈ s.modalAborted := by simpa using hab
      simp [loadByPositionResolve, loadFinally, hm, hc]
    · have hm : tok ∉ s.modalAborted := by simpa using hab
      have hab2 : s.modalAborted.contains tok = false := by simpa using hm
      cases hhd : posts.head? with
      | none => simp [loadByPositionResolve, loadFinally, hm, hhd, hc]
      | some post =>
        have hpost := loadStage2_post tok position post u c s hab2
        have hc2 : ((loadStage2 tok position post u c s).1.modalController == some tok)
            = true := by simp [hpost.2.2.1, hctrl]
        simp [loadByPositionResolve, loadFinally, hm, hhd, hc2, hpost.2.2.2]

/-- Field bookkeeping of the `loadPostForModal` issue phase: the previous
in-flight token is aborted; a pending (cache-missing) issue installs the fresh
controller and records the requested id; a cache-served issue finishes with the
controller released and the loading flag down. -/
theorem loadPostForModalIssue_facts (tok position : Nat) (postId : Option Nat)
    (ctx : Option SearchContext) (s : Sys) :
    ((loadPostForModalIssue tok position postId ctx s).s.modalAborted =
      (match s.modalController with
       | some t => t :: s.modalAborted
       | none => s.modalAborted)) ∧
    ((loadPostForModalIssue tok position postId ctx s).pending = true →
      (loadPostForModalIssue tok position postId ctx s).s.modalController = some tok ∧
      (loadPostForModalIssue tok position postId ctx s).s.modalRequestedPostId = postId) ∧
    ((loadPostForModalIssue tok position postId ctx s).pending = false →
      (loadPostForModalIssue tok position postId ctx s).s.modalController = none ∧
      (loadPostForModalIssue tok position postId ctx s).s.modalPostLoading = false) := by
  refine ⟨?_, ?_, ?_⟩ <;>
    (rcases hc : s.modalController with _ | t <;>
      rcases postId with _ | pid <;>
        simp only [loadPostForModalIssue, hc] <;>
        split <;>
        simp_all)

/-- Last-request-wins for two overlapping list fetches: once the second fetch
has been issued (aborting the first), the first fetch's resolution — whenever
it arrives, before or after the second's — leaves the final store state exactly
as if only the second fetch had resolved. -/
theorem list_overlapping_fetches_last_wins (s0 : Sys) (tok1 tok2 : Nat) (r1 r2 : Bool)
    (o1 o2 : FetchOutcome) (hco : canceledFetchOutcome o1) :
    (fetchPostsResolve tok2 o2
        (fetchPostsResolve tok1 o1
          (fetchPostsIssue tok2 r2 (fetchPostsIssue tok1 r1 s0).1).1).s).s =
      (fetchPostsResolve tok2 o2 (fetchPostsIssue tok2 r2 (fetchPostsIssue tok1 r1 s0).1).1).s ∧
    (fetchPostsResolve tok1 o1
        (fetchPostsResolve tok2 o2
          (fetchPostsIssue tok2 r2 (fetchPostsIssue tok1 r1 s0).1).1).s).s =
      (fetchPostsResolve tok2 o2 (fetchPostsIssue tok2 r2 (fetchPostsIssue tok1 r1 s0).1).1).s := by
  have hctrl1 : (fetchPostsIssue tok1 r1 s0).1.listController = some tok1 :=
    (fetchPostsIssue_ctrl tok1 r1 s0).1
  have hab2 : (fetchPostsIssue tok2 r2 (fetchPostsIssue tok1 r1 s0).1).1.listAborted =
      tok1 :: (fetchPostsIssue tok1 r1 s0).1.listAborted := by
    have h := (fetchPostsIssue_ctrl tok2 r2 (fetchPostsIssue tok1 r1 s0).1).2
    rw [hctrl1] at h
    exact h
  have hin : (fetchPostsIssue tok2 r2 (fetchPostsIssue tok1 r1 s0).1).1.listAborted.contains tok1
      = true := by
    rw [hab2]
    simp
  constructor
  · rw [fetchPostsResolve_canceled tok1 o1 _ hin hco, fetchPostsResolve_flag_indep]
  · have hq := fetchPostsResolve_ends_quiet tok2 o2
      (fetchPostsIssue tok2 r2 (fetchPostsIssue tok1 r1 s0).1).1
    have hin2 : (fetchPostsResolve tok2 o2
        (fetchPostsIssue tok2 r2 (fetchPostsIssue tok1 r1 s0).1).1).s.listAborted.contains tok1
        = true := by
      rw [hq.2.2]
      exact hin
    rw [fetchPostsResolve_canceled tok1 o1 _ hin2 hco, set_list_flags_self _ hq.1 hq.2.1]

/-- A canceled `loadPostForModal` resolution (of either kind) only runs its
`finally` clause. -/
theorem loadResolve_canceled (tok position : Nat) (postId : Option Nat)
    (outById : SettledRes PostDto) (outByPos : SettledRes (List PostDto))
    (u : SettledRes (Option UserDto)) (c : SettledRes (List CommentDto)) (s : Sys)
    (h : s.modalAborted.contains tok = true)
    (hcoI : canceledSettled outById) (hcoP : canceledSettled outByPos) :
    (loadResolve tok position postId outById outByPos u c s).s = loadFinally tok postId s := by
  cases postId with
  | some pid => exact loadByIdResolve_canceled tok pid position outById u c s h hcoI
  | none => exact loadByPositionResolve_canceled tok position outByPos u c s h hcoP

/-- Flag-independence for either kind of resolution. -/
theorem loadResolve_flag_indep (tok position : Nat) (postId : Option Nat)
    (outById : SettledRes PostDto) (outByPos : SettledRes (List PostDto))
    (u : SettledRes (Option UserDto)) (c : SettledRes (List CommentDto)) (s : Sys) (b : Bool)
    (hreq : s.modalRequestedPostId = postId)
    (hwf : ∀ pid, postId = some pid → byIdWellFormed pid outById) :
    loadResolve tok position postId outById outByPos u c { s with modalPostLoading := b } =
      loadResolve tok position postId outById outByPos u c s := by
  cases postId with
  | some pid =>
    exact loadByIdResolve_flag_indep tok pid position outById u c s b hreq (hwf pid rfl)
  | none => exact loadByPositionResolve_flag_indep tok position outByPos u c s b

/-- Every completed resolution of either kind drops the loading flag, releases
the controller it owns, and leaves the aborted set alone. -/
theorem loadResolve_ends (tok position : Nat) (postId : Option Nat)
    (outById : SettledRes PostDto) (outByPos : SettledRes (List PostDto))
    (u : SettledRes (Option UserDto)) (c : SettledRes (List CommentDto)) (s : Sys)
    (hreq : s.modalRequestedPostId = postId)
    (hwf : ∀ pid, postId = some pid → byIdWellFormed pid outById)
    (hctrl : s.modalController = some tok) :
    (loadResolve tok position postId outById outByPos u c s).s.modalPostLoading = false ∧
    (loadResolve tok position postId outById outByPos u c s).s.modalController = none ∧
    (loadResolve tok position postId outById outByPos u c s).s.modalAborted = s.modalAborted := by
  cases postId with
  | some pid => exact loadByIdResolve_ends tok pid position outById u c s hreq (hwf pid rfl) hctrl
  | none => exact loadByPositionResolve_ends tok position outByPos u c s hctrl

/-- Last-request-wins for two overlapping modal detail loads: once the second
load has been issued (aborting the first in-flight one), the first load's
resolution never changes the final state, whether the second load is served
from the cache or resolves from the network, and in either order of
resolution. -/
theorem modal_overlapping_loads_last_wins (s0 : Sys) (tok1 tok2 pos1 pos2 : Nat)
    (pid1 pid2 : Option Nat) (ctx1 ctx2 : Option SearchContext)
    (oI1 oI2 : SettledRes PostDto) (oP1 oP2 : SettledRes (List PostDto))
    (u1 u2 : SettledRes (Option UserDto)) (c1 c2 : SettledRes (List CommentDto))
    (hne : tok1 ≠ tok2)
    (hpend1 : (loadPostForModalIssue tok1 pos1 pid1 ctx1 s0).pending = true)
    (hcoI1 : canceledSettled oI1) (hcoP1 : canceledSettled oP1)
    (hwf2 : ∀ pid, pid2 = some pid → byIdWellFormed pid oI2) :
    ((loadPostForModalIssue tok2 pos2 pid2 ctx2
        (loadPostForModalIssue tok1 pos1 pid1 ctx1 s0).s).pending = true →
      (loadResolve tok2 pos2 pid2 oI2 oP2 u2 c2
          (loadResolve tok1 pos1 pid1 oI1 oP1 u1 c1
            (loadPostForModalIssue tok2 pos2 pid2 ctx2
              (loadPostForModalIssue tok1 pos1 pid1 ctx1 s0).s).s).s).s =
        (loadResolve tok2 pos2 pid2 oI2 oP2 u2 c2
          (loadPostForModalIssue tok2 pos2 pid2 ctx2
            (loadPostForModalIssue tok1 pos1 pid1 ctx1 s0).s).s).s ∧
      (loadResolve tok1 pos1 pid1 oI1 oP1 u1 c1
          (loadResolve tok2 pos2 pid2 oI2 oP2 u2 c2
            (loadPostForModalIssue tok2 pos2 pid2 ctx2
              (loadPostForModalIssue tok1 pos1 pid1 ctx1 s0).s).s).s).s =
        (loadResolve tok2 pos2 pid2 oI2 oP2 u2 c2
          (loadPostForModalIssue tok2 pos2 pid2 ctx2
            (loadPostForModalIssue tok1 pos1 pid1 ctx1 s0).s).s).s) ∧
    ((loadPostForModalIssue tok2 pos2 pid2 ctx2
        (loadPostForModalIssue tok1 pos1 pid1 ctx1 s0).s).pending = false →
      (loadResolve tok1 pos1 pid1 oI1 oP1 u1 c1
          (loadPostForModalIssue tok2 pos2 pid2 ctx2
            (loadPostForModalIssue tok1 pos1 pid1 ctx1 s0).s).s).s =
        (loadPostForModalIssue tok2 pos2 pid2 ctx2
          (loadPostForModalIssue tok1 pos1 pid1 ctx1 s0).s).s) := by
  have h1 := loadPostForModalIssue_facts tok1 pos1 pid1 ctx1 s0
  have h2 := loadPostForModalIssue_facts tok2 pos2 pid2 ctx2
    (loadPostForModalIssue tok1 pos1 pid1 ctx1 s0).s
  have hctrl1 : (loadPostForModalIssue tok1 pos1 pid1 ctx1 s0).s.modalController = some tok1 :=
    (h1.2.1 hpend1).1
  have hab : (loadPostForModalIssue tok2 pos2 pid2 ctx2
      (loadPostForModalIssue tok1 pos1 pid1 ctx1 s0).s).s.modalAborted =
      tok1 :: (loadPostForModalIssue tok1 pos1 pid1 ctx1 s0).s.modalAborted := by
    have h := h2.1
    rw [hctrl1] at h
    exact h
  have hcont1 : (loadPostForModalIssue tok2 pos2 pid2 ctx2
      (loadPostForModalIssue tok1 pos1 pid1 ctx1 s0).s).s.modalAborted.contains tok1 = true := by
    rw [hab]
    simp
  constructor
  · intro hpend2
    have hc2 := h2.2.1 hpend2
    have hctrl12 : (loadPostForModalIssue tok2 pos2 pid2 ctx2
        (loadPostForModalIssue tok1 pos1 pid1 ctx1 s0).s).s.modalController ≠ some tok1 := by
      rw [hc2.1]
      intro h
      exact hne (Option.some.inj h).symm
    obtain ⟨b, hb⟩ := loadFinally_shape tok1 pid1 _ hctrl12
    constructor
    · rw [loadResolve_canceled tok1 pos1 pid1 oI1 oP1 u1 c1 _ hcont1 hcoI1 hcoP1, hb,
        loadResolve_flag_indep tok2 pos2 pid2 oI2 oP2 u2 c2 _ b hc2.2 hwf2]
    · have hends := loadResolve_ends tok2 pos2 pid2 oI2 oP2 u2 c2
        (loadPostForModalIssue tok2 pos2 pid2 ctx2
          (loadPostForModalIssue tok1 pos1 pid1 ctx1 s0).s).s hc2.2 hwf2 hc2.1
      have hcont1b : (loadResolve tok2 pos2 pid2 oI2 oP2 u2 c2
          (loadPostForModalIssue tok2 pos2 pid2 ctx2
            (loadPostForModalIssue tok1 pos1 pid1 ctx1 s0).s).s).s.modalAborted.contains tok1
          = true := by
        rw [hends.2.2]
        exact hcont1
      rw [loadResolve_canceled tok1 pos1 pid1 oI1 oP1 u1 c1 _ hcont1b hcoI1 hcoP1,
        loadFinally_noop tok1 pid1 _ hends.1 (by rw [hends.2.1]; exact fun h => Option.noConfusion h)]
  · intro hpend2
    have hc2 := h2.2.2 hpend2
    rw [loadResolve_canceled tok1 pos1 pid1 oI1 oP1 u1 c1 _ hcont1 hcoI1 hcoP1,
      loadFinally_noop tok1 pid1 _ hc2.2 (by rw [hc2.1]; exact fun h => Option.noConfusion h)]

/-- C1: for every pair of overlapping fetches issued by the same store — two
list fetches via search/loadPage/refresh (any reset flags), or two
`loadPostForModal` calls — where the first request's response arrives after the
second was issued (the second's issue aborts the first, so the first resolves
as an AbortError rejection or as a response observed under an aborted signal),
the store's final state is exactly the state produced by the second request's
resolution alone, in either resolution order: a canceled request's eventual
resolution, success or failure, never affects the final state. -/
theorem overlapping_requests_last_issued_wins :
    (∀ (s0 : Sys) (tok1 tok2 : Nat) (r1 r2 : Bool) (o1 o2 : FetchOutcome),
      canceledFetchOutcome o1 →
      (fetchPostsResolve tok2 o2
          (fetchPostsResolve tok1 o1
            (fetchPostsIssue tok2 r2 (fetchPostsIssue tok1 r1 s0).1).1).s).s =
        (fetchPostsResolve tok2 o2
          (fetchPostsIssue tok2 r2 (fetchPostsIssue tok1 r1 s0).1).1).s ∧
      (fetchPostsResolve tok1 o1
          (fetchPostsResolve tok2 o2
            (fetchPostsIssue tok2 r2 (fetchPostsIssue tok1 r1 s0).1).1).s).s =
        (fetchPostsResolve tok2 o2
          (fetchPostsIssue tok2 r2 (fetchPostsIssue tok1 r1 s0).1).1).s) ∧
    (∀ (s0 : Sys) (tok1 tok2 pos1 pos2 : Nat) (pid1 pid2 : Option Nat)
        (ctx1 ctx2 : Option SearchContext) (oI1 oI2 : SettledRes PostDto)
        (oP1 oP2 : SettledRes (List PostDto)) (u1 u2 : SettledRes (Option UserDto))
        (c1 c2 : SettledRes (List CommentDto)),
      tok1 ≠ tok2 →
      (loadPostForModalIssue tok1 pos1 pid1 ctx1 s0).pending = true →
      canceledSettled oI1 → canceledSettled oP1 →
      (∀ pid, pid2 = some pid → byIdWellFormed pid oI2) →
      ((loadPostForModalIssue tok2 pos2 pid2 ctx2
          (loadPostForModalIssue tok1 pos1 pid1 ctx1 s0).s).pending = true →
        (loadResolve tok2 pos2 pid2 oI2 oP2 u2 c2
            (loadResolve tok1 pos1 pid1 oI1 oP1 u1 c1
              (loadPostForModalIssue tok2 pos2 pid2 ctx2
                (loadPostForModalIssue tok1 pos1 pid1 ctx1 s0).s).s).s).s =
          (loadResolve tok2 pos2 pid2 oI2 oP2 u2 c2
            (loadPostForModalIssue tok2 pos2 pid2 ctx2
              (loadPostForModalIssue tok1 pos1 pid1 ctx1 s0).s).s).s ∧
        (loadResolve tok1 pos1 pid1 oI1 oP1 u1 c1
            (loadResolve tok2 pos2 pid2 oI2 oP2 u2 c2
              (loadPostForModalIssue tok2 pos2 pid2 ctx2
                (loadPostForModalIssue tok1 pos1 pid1 ctx1 s0).s).s).s).s =
          (loadResolve tok2 pos2 pid2 oI2 oP2 u2 c2
            (loadPostForModalIssue tok2 pos2 pid2 ctx2
              (loadPostForModalIssue tok1 pos1 pid1 ctx1 s0).s).s).s) ∧
      ((loadPostForModalIssue tok2 pos2 pid2 ctx2
          (loadPostForModalIssue tok1 pos1 pid1 ctx1 s0).s).pending = false →
        (loadResolve tok1 pos1 pid1 oI1 oP1 u1 c1
            (loadPostForModalIssue tok2 pos2 pid2 ctx2
              (loadPostForModalIssue tok1 pos1 pid1 ctx1 s0).s).s).s =
          (loadPostForModalIssue tok2 pos2 pid2 ctx2
            (loadPostForModalIssue tok1 pos1 pid1 ctx1 s0).s).s)) :=
  ⟨fun s0 tok1 tok2 r1 r2 o1 o2 hco =>
    list_overlapping_fetches_last_wins s0 tok1 tok2 r1 r2 o1 o2 hco,
   fun s0 tok1 tok2 pos1 pos2 pid1 pid2 ctx1 ctx2 oI1 oI2 oP1 oP2 u1 u2 c1 c2
       hne hpend1 hcoI1 hcoP1 hwf2 =>
    modal_overlapping_loads_last_wins s0 tok1 tok2 pos1 pos2 pid1 pid2 ctx1 ctx2
      oI1 oI2 oP1 oP2 u1 u2 c1 c2 hne hpend1 hcoI1 hcoP1 hwf2⟩

/-- Witness for C1: a concrete overlapping pair for each store.  The first
list fetch is canceled and rejects with an AbortError while the second
resolves with a one-post page; the first modal load (post 5) is superseded by
a load of post 6 that resolves from the network. -/
theorem overlapping_requests_last_issued_wins_witness :
    canceledFetchOutcome (FetchOutcome.failure ⟨true, none⟩) ∧
    (fetchPostsResolve 1 (FetchOutcome.success [samplePost 3] (some 1) none)
        (fetchPostsResolve 0 (FetchOutcome.failure ⟨true, none⟩)
          (fetchPostsIssue 1 false (fetchPostsIssue 0 true sampleSys).1).1).s).s =
      (fetchPostsResolve 1 (FetchOutcome.success [samplePost 3] (some 1) none)
        (fetchPostsIssue 1 false (fetchPostsIssue 0 true sampleSys).1).1).s ∧
    (loadPostForModalIssue 1 2 (some 6) none
        (loadPostForModalIssue 0 1 (some 5) none sampleSys).s).pending = true ∧
    (loadResolve 1 2 (some 6) (SettledRes.fulfilled (samplePost 6))
        (SettledRes.rejected ⟨true, none⟩) (SettledRes.fulfilled none)
        (SettledRes.fulfilled [])
        (loadResolve 0 1 (some 5) (SettledRes.rejected ⟨true, none⟩)
          (SettledRes.rejected ⟨true, none⟩) (SettledRes.fulfilled none)
          (SettledRes.fulfilled [])
          (loadPostForModalIssue 1 2 (some 6) none
            (loadPostForModalIssue 0 1 (some 5) none sampleSys).s).s).s).s =
      (loadResolve 1 2 (some 6) (SettledRes.fulfilled (samplePost 6))
        (SettledRes.rejected ⟨true, none⟩) (SettledRes.fulfilled none)
        (SettledRes.fulfilled [])
        (loadPostForModalIssue 1 2 (some 6) none
          (loadPostForModalIssue 0 1 (some 5) none sampleSys).s).s).s := by
  refine ⟨rfl, ?_, by decide, ?_⟩
  · exact (overlapping_requests_last_issued_wins.1 sampleSys 0 1 true false
      (FetchOutcome.failure ⟨true, none⟩)
      (FetchOutcome.success [samplePost 3] (some 1) none) rfl).1
  · exact ((overlapping_requests_last_issued_wins.2 sampleSys 0 1 1 2 (some 5) (some 6)
      none none (SettledRes.rejected ⟨true, none⟩) (SettledRes.fulfilled (samplePost 6))
      (SettledRes.rejected ⟨true, none⟩) (SettledRes.rejected ⟨true, none⟩)
      (SettledRes.fulfilled none) (SettledRes.fulfilled none)
      (SettledRes.fulfilled []) (SettledRes.fulfilled [])
      (by decide) (by decide) rfl rfl (fun pid h => by cases h; rfl)).1 (by decide)).1

/-! ### C6 -/

/-- C6 counterexample: after two overlapping list fetches, the first request
(token 0) is canceled (it is in the aborted set); its AbortError rejection is
rethrown by `fetchPosts` to the caller — the operation does not resolve
quietly as "superseded". -/
theorem canceled_fetch_rethrows_cex :
    ((fetchPostsIssue 1 false (fetchPostsIssue 0 true sampleSys).1).1.listAborted.contains 0
      = true) ∧
    (fetchPostsResolve 0 (FetchOutcome.failure ⟨true, none⟩)
        (fetchPostsIssue 1 false (fetchPostsIssue 0 true sampleSys).1).1).err =
      some ⟨true, none⟩ := by
  exact ⟨by decide, by decide⟩

/-- C6 amended: a canceled (superseded) list fetch or detail load never logs
an error and never mutates the store beyond its `finally` clause, and when it
observes the aborted signal after a successful response it resolves without
error; but when the canceled request's promise rejects with the cancellation
error, `fetchPosts` and `loadPostForModal` rethrow that rejection to their
caller instead of swallowing it. -/
theorem canceled_resolution_never_logged_but_rethrown :
    (∀ (tok : Nat) (o : FetchOutcome) (s : Sys),
      s.listAborted.contains tok = true → canceledFetchOutcome o →
      (∀ msg, Ev.logError msg ∉ (fetchPostsResolve tok o s).ev) ∧
      (fetchPostsResolve tok o s).s = { s with isLoading := false, listController := none } ∧
      (∀ p t tp, o = FetchOutcome.success p t tp → (fetchPostsResolve tok o s).err = none) ∧
      (∀ e, o = FetchOutcome.failure e → (fetchPostsResolve tok o s).err = some e)) ∧
    (∀ (tok position : Nat) (postId : Option Nat) (outById : SettledRes PostDto)
        (outByPos : SettledRes (List PostDto)) (u : SettledRes (Option UserDto))
        (c : SettledRes (List CommentDto)) (s : Sys),
      s.modalAborted.contains tok = true →
      canceledSettled outById → canceledSettled outByPos →
      (∀ msg, Ev.logError msg ∉ (loadResolve tok position postId outById outByPos u c s).ev) ∧
      (loadResolve tok position postId outById outByPos u c s).s = loadFinally tok postId s ∧
      (∀ pid, postId = some pid →
        (∀ e, outById = SettledRes.rejected e →
          (loadResolve tok position postId outById outByPos u c s).err = some e) ∧
        (∀ post, outById = SettledRes.fulfilled post →
          (loadResolve tok position postId outById outByPos u c s).err = none)) ∧
      (postId = none →
        (∀ e, outByPos = SettledRes.rejected e →
          (loadResolve tok position postId outById outByPos u c s).err = some e) ∧
        (∀ posts, outByPos = SettledRes.fulfilled posts →
          (loadResolve tok position postId outById outByPos u c s).err = none))) := by
  constructor
  · intro tok o s h hco
    have hm : tok ∈ s.listAborted := by simpa using h
    refine ⟨?_, fetchPostsResolve_canceled tok o s h hco, ?_, ?_⟩
    · intro msg
      cases o with
      | success p t tp => simp [fetchPostsResolve, hm]
      | failure e =>
        have he : e.isAbort = true := hco
        simp [fetchPostsResolve, he]
    · intro p t tp ho
      subst ho
      simp [fetchPostsResolve, hm]
    · intro e ho
      subst ho
      have he : e.isAbort = true := hco
      simp [fetchPostsResolve, he]
  · intro tok position postId outById outByPos u c s h hcoI hcoP
    have hm : tok ∈ s.modalAborted := by simpa using h
    refine ⟨?_,
      loadResolve_canceled tok position postId outById outByPos u c s h hcoI hcoP, ?_, ?_⟩
    · intro msg
      cases postId with
      | some pid =>
        cases outById with
        | rejected e =>
          have he : e.isAbort = true := hcoI
          simp [loadResolve, loadByIdResolve, he]
        | fulfilled post => simp [loadResolve, loadByIdResolve, hm]
      | none =>
        cases outByPos with
        | rejected e =>
          have he : e.isAbort = true := hcoP
          simp [loadResolve, loadByPositionResolve, he]
        | fulfilled posts => simp [loadResolve, loadByPositionResolve, hm]
    · intro pid hpid
      subst hpid
      constructor
      · intro e ho
        subst ho
        simp [loadResolve, loadByIdResolve]
      · intro post ho
        subst ho
        simp [loadResolve, loadByIdResolve, hm]
    · intro hpid
      subst hpid
      constructor
      · intro e ho
        subst ho
        simp [loadResolve, loadByPositionResolve]
      · intro posts ho
        subst ho
        simp [loadResolve, loadByPositionResolve, hm]

/-- Witness for the amended C6 at the concrete overlapping pairs of the
counterexample. -/
theorem canceled_resolution_never_logged_but_rethrown_witness :
    ((fetchPostsIssue 1 false (fetchPostsIssue 0 true sampleSys).1).1.listAborted.contains 0
      = true) ∧
    (∀ msg, Ev.logError msg ∉ (fetchPostsResolve 0 (FetchOutcome.failure ⟨true, none⟩)
      (fetchPostsIssue 1 false (fetchPostsIssue 0 true sampleSys).1).1).ev) ∧
    ((loadPostForModalIssue 1 2 (some 6) none
        (loadPostForModalIssue 0 1 (some 5) none sampleSys).s).s.modalAborted.contains 0
      = true) ∧
    (loadResolve 0 1 (some 5) (SettledRes.rejected ⟨true, none⟩)
        (SettledRes.rejected ⟨true, none⟩) (SettledRes.fulfilled none) (SettledRes.fulfilled [])
        (loadPostForModalIssue 1 2 (some 6) none
          (loadPostForModalIssue 0 1 (some 5) none sampleSys).s).s).err = some ⟨true, none⟩ := by
  have hl := canceled_resolution_never_logged_but_rethrown.1 0
    (FetchOutcome.failure ⟨true, none⟩)
    (fetchPostsIssue 1 false (fetchPostsIssue 0 true sampleSys).1).1 (by decide) rfl
  have hmdl := canceled_resolution_never_logged_but_rethrown.2 0 1 (some 5)
    (SettledRes.rejected ⟨true, none⟩) (SettledRes.rejected ⟨true, none⟩)
    (SettledRes.fulfilled none) (SettledRes.fulfilled [])
    (loadPostForModalIssue 1 2 (some 6) none
      (loadPostForModalIssue 0 1 (some 5) none sampleSys).s).s (by decide) rfl rfl
  exact ⟨by decide, hl.1, by decide, (hmdl.2.2.1 5 rfl).1 ⟨true, none⟩ rfl⟩

/-- A state whose modal shows post 7 with one comment (id 21, 3 likes). -/
def sampleCommentSys : Sys :=
  { sampleSys with
    modalRequestedPostId := some 7,
    postDetailsCache := [{ post := samplePost 7, user := none,
                           comments := [{ id := 21, likes := 3 }], position := some 3 }] }

/-- Witness for the amended C5: a successful toggleReaction persists exactly
once before its patch call; a failing toggleCommentLike restores the liked-id
set; a failing incrementViews leaves the state untouched. -/
theorem mutation_effect_order_witness :
    (∃ v, (toggleReaction 7 UserPostReaction.like (some 1) none sampleReactSys).2 =
      [Ev.storeWrite "post_user_reactions", Ev.patchPostReactions 7 v]) ∧
    (∀ k, k ∈ (toggleCommentLike 21 (some 1) (some ⟨false, some 500⟩)
        sampleCommentSys).1.likedCommentIds ↔ k ∈ sampleCommentSys.likedCommentIds) ∧
    (incrementViews 7 (some ⟨false, some 404⟩) sampleCachedSys).1 = sampleCachedSys := by
  refine ⟨?_, ?_, ?_⟩
  · exact (mutation_effect_order.1 7 UserPostReaction.like (some 1) sampleReactSys
      { post := samplePost 7, user := none, comments := [], position := some 3 }
      (by decide)).1
  · exact ((mutation_effect_order.2.1 21 (some 1) sampleCommentSys
      { post := samplePost 7, user := none, comments := [{ id := 21, likes := 3 }],
        position := some 3 }
      { id := 21, likes := 3 } (by decide) (by decide)).2 ⟨false, some 500⟩).2.2.1
  · exact (mutation_effect_order.2.2 7 sampleCachedSys (by decide)).2.1 ⟨false, some 404⟩

end NewsProject
